import Mathlib

/-!
# Verification of the qdrant_hackathon image pipeline

A shallow embedding of the orchestration code of the `qdrant_hackathon`
repository (image-processing pipeline, search router, bulk runner, vector-store
adapter, tag normalization, path validation, metadata writing), together with
theorems settling the frozen claims about the natural-language specification.

Conventions of the embedding:
* Python strings are Lean `String`s; `str.lower()` / `str.strip()` are modelled
  character-wise on the underlying `List Char` (`pyLower`, `pyStrip`).
* Python machine floats in embeddings/GPS values are idealized as `ℚ` (and the
  cosine score of the modelled vector store as `ℝ`).
* A Python function that returns a `(result, error)` pair becomes a Lean
  function returning a product with `Option String`; a Python function that can
  raise becomes a function into `Except String _`.
* External calls (PIL, exifread, the Ollama endpoint, the CLIP model, the
  Qdrant client, geopy) are oracles: their outcomes are explicit inputs of the
  embedded functions, so every data-dependent branch of the repository code is
  preserved while the network/file system is abstracted away.
-/

namespace QdrantSpec

/-! ## Python string primitives -/

/-- Python truthiness of an optional string (`None` and `""` are falsy). -/
def truthyStr : Option String → Bool
  | none => false
  | some s => s ≠ ""

/-- Python truthiness of an optional list (`None` and `[]` are falsy). -/
def truthyList {α : Type _} : Option (List α) → Bool
  | none => false
  | some [] => false
  | some (_ :: _) => true

/-- `str.lower()` modelled character-wise with `Char.toLower` (ASCII lowering). -/
def pyLower (s : String) : String := ⟨s.data.map Char.toLower⟩

/-- Drop trailing elements satisfying `p` (helper for `str.strip`). -/
def dropEndWhile {α : Type _} (p : α → Bool) (l : List α) : List α :=
  (l.reverse.dropWhile p).reverse

/-- `str.strip()` on the character list: remove leading and trailing whitespace. -/
def stripList (l : List Char) : List Char :=
  dropEndWhile Char.isWhitespace (l.dropWhile Char.isWhitespace)

/-- Python `str.strip()` (no arguments: strips whitespace from both ends). -/
def pyStrip (s : String) : String := ⟨stripList s.data⟩

/-- Python `str.strip(c)` for a single-character argument `c`. -/
def pyStripChar (c : Char) (s : String) : String :=
  ⟨dropEndWhile (fun a => a == c) (s.data.dropWhile (fun a => a == c))⟩

/-- Python `sep.split(...)` for a one-character separator, on character lists. -/
def splitCharList (c : Char) : List Char → List (List Char)
  | [] => [[]]
  | a :: t =>
    let r := splitCharList c t
    if a = c then [] :: r
    else
      match r with
      | h :: t' => (a :: h) :: t'
      | [] => [[a]]

/-- Python `s.split(c)` for a single-character separator `c`. -/
def pySplit (c : Char) (s : String) : List String :=
  (splitCharList c s.data).map (fun l => ⟨l⟩)

/-- Python `c in s` for a single character `c`. -/
def pyContainsChar (s : String) (c : Char) : Bool := s.data.contains c

/-- Python `b.startswith(a)`: `a` is a string prefix of `b`. -/
def pyStartsWith (s pre : String) : Bool := pre.data.isPrefixOf s.data

/-- Python `b.endswith(a)`: `a` is a string suffix of `b`. -/
def pyEndsWith (s suf : String) : Bool := suf.data.isSuffixOf s.data

/-- Python `len(s)` (character count, adequate over the BMP). -/
def pyLen (s : String) : Nat := s.data.length

/-! ## Character-level lemmas about lowering and whitespace -/

theorem char_toNat_ofNat (n : Nat) (h : n.isValidChar) : (Char.ofNat n).toNat = n := by
  rw [Char.ofNat, dif_pos h]
  rfl

theorem char_eq_of_toNat_eq {c d : Char} (h : c.toNat = d.toNat) : c = d := by
  apply Char.ext
  exact UInt32.toNat.inj h

theorem toLower_toNat (c : Char) :
    (Char.toLower c).toNat =
      if 65 ≤ c.toNat ∧ c.toNat ≤ 90 then c.toNat + 32 else c.toNat := by
  simp only [Char.toLower]
  split
  · next h =>
    rw [char_toNat_ofNat _ (Or.inl (by omega))]
  · rfl

theorem isWhitespace_iff_toNat (c : Char) :
    c.isWhitespace = true ↔
      (c.toNat = 32 ∨ c.toNat = 9 ∨ c.toNat = 13 ∨ c.toNat = 10) := by
  unfold Char.isWhitespace
  simp only [Bool.or_eq_true, decide_eq_true_eq]
  constructor
  · rintro (((rfl | rfl) | rfl) | rfl) <;> decide
  · rintro (h | h | h | h)
    · exact Or.inl (Or.inl (Or.inl (char_eq_of_toNat_eq (by rw [h]; rfl))))
    · exact Or.inl (Or.inl (Or.inr (char_eq_of_toNat_eq (by rw [h]; rfl))))
    · exact Or.inl (Or.inr (char_eq_of_toNat_eq (by rw [h]; rfl)))
    · exact Or.inr (char_eq_of_toNat_eq (by rw [h]; rfl))

theorem isWhitespace_toLower (c : Char) :
    (Char.toLower c).isWhitespace = c.isWhitespace := by
  rw [Bool.eq_iff_iff, isWhitespace_iff_toNat, isWhitespace_iff_toNat, toLower_toNat]
  split <;> omega

theorem toLower_toLower (c : Char) : (Char.toLower c).toLower = Char.toLower c := by
  apply char_eq_of_toNat_eq
  rw [toLower_toNat (Char.toLower c), toLower_toNat c]
  split_ifs <;> omega

/-! ## Fixed points of strip and lower -/

theorem dropWhile_head?_false {p : α → Bool} {l : List α} {a : α}
    (h : (l.dropWhile p).head? = some a) : p a = false := by
  induction l with
  | nil => simp at h
  | cons b t ih =>
    rw [List.dropWhile_cons] at h
    split at h
    · exact ih h
    · next hb =>
      simp at h
      subst h
      exact Bool.not_eq_true _ |>.mp hb

theorem dropWhile_of_head?_false {p : α → Bool} {l : List α}
    (h : ∀ a, l.head? = some a → p a = false) : l.dropWhile p = l := by
  cases l with
  | nil => rfl
  | cons b t =>
    rw [List.dropWhile_cons, if_neg]
    simp [h b rfl]

theorem dropEndWhile_of_getLast?_false {p : α → Bool} {l : List α}
    (h : ∀ a, l.getLast? = some a → p a = false) : dropEndWhile p l = l := by
  unfold dropEndWhile
  rw [dropWhile_of_head?_false, List.reverse_reverse]
  intro a ha
  rw [List.head?_reverse] at ha
  exact h a ha

/-- The head of a stripped character list is not whitespace. -/
theorem head?_stripList_false {l : List Char} {a : Char}
    (h : (stripList l).head? = some a) : a.isWhitespace = false := by
  unfold stripList dropEndWhile at h
  rw [List.head?_reverse] at h
  obtain ⟨t, ht⟩ :=
    List.dropWhile_suffix (l := (l.dropWhile Char.isWhitespace).reverse)
      (p := Char.isWhitespace)
  cases hX : (l.dropWhile Char.isWhitespace).reverse.dropWhile Char.isWhitespace with
  | nil =>
    rw [hX] at h
    simp at h
  | cons b m =>
    rw [hX] at h ht
    have h2 : (l.dropWhile Char.isWhitespace).reverse.getLast? = some a := by
      rw [← ht, List.getLast?_append_of_ne_nil _ (by simp)]
      exact h
    rw [List.getLast?_reverse] at h2
    exact dropWhile_head?_false h2

/-- The last character of a stripped character list is not whitespace. -/
theorem getLast?_stripList_false {l : List Char} {a : Char}
    (h : (stripList l).getLast? = some a) : a.isWhitespace = false := by
  unfold stripList dropEndWhile at h
  rw [List.getLast?_reverse] at h
  exact dropWhile_head?_false h

theorem stripList_eq_self {l : List Char}
    (h1 : ∀ a, l.head? = some a → a.isWhitespace = false)
    (h2 : ∀ a, l.getLast? = some a → a.isWhitespace = false) :
    stripList l = l := by
  unfold stripList
  rw [dropWhile_of_head?_false h1]
  exact dropEndWhile_of_getLast?_false h2

theorem stripList_idem (l : List Char) : stripList (stripList l) = stripList l :=
  stripList_eq_self (fun _ ha => head?_stripList_false ha)
    (fun _ ha => getLast?_stripList_false ha)

theorem dropWhile_map_toLower (l : List Char) :
    (l.map Char.toLower).dropWhile Char.isWhitespace =
      (l.dropWhile Char.isWhitespace).map Char.toLower := by
  rw [List.dropWhile_map]
  have hp : (Char.isWhitespace ∘ Char.toLower) = Char.isWhitespace := by
    funext c
    exact isWhitespace_toLower c
  rw [hp]

theorem stripList_map_toLower (l : List Char) :
    stripList (l.map Char.toLower) = (stripList l).map Char.toLower := by
  unfold stripList dropEndWhile
  rw [dropWhile_map_toLower, ← List.map_reverse, dropWhile_map_toLower,
    ← List.map_reverse]

/-- `strip` is idempotent. -/
theorem pyStrip_pyStrip (s : String) : pyStrip (pyStrip s) = pyStrip s := by
  unfold pyStrip
  exact congrArg String.mk (stripList_idem s.data)

/-- Lowering commutes with stripping. -/
theorem pyStrip_pyLower (s : String) : pyStrip (pyLower s) = pyLower (pyStrip s) := by
  unfold pyStrip pyLower
  exact congrArg String.mk (stripList_map_toLower s.data)

/-- A strip-then-lower result is already stripped. -/
theorem pyStrip_pyLower_pyStrip (s : String) :
    pyStrip (pyLower (pyStrip s)) = pyLower (pyStrip s) := by
  rw [pyStrip_pyLower, pyStrip_pyStrip]

/-- `lower` is idempotent. -/
theorem pyLower_pyLower (s : String) : pyLower (pyLower s) = pyLower s := by
  unfold pyLower
  refine congrArg String.mk ?_
  rw [List.map_map]
  exact List.map_congr_left fun c _ => toLower_toLower c

/-! ## Embedded configuration (`src/config.py`) -/

namespace Config

def COLLECTION_NAME : String := "image_db"

def SUPPORTED_EXTENSIONS : List String :=
  [".jpg", ".jpeg", ".png", ".gif", ".bmp", ".tiff", ".webp"]

def QDRANT_HOST : String := "localhost"

def QDRANT_PORT : Nat := 6333

/-- `Config.get_qdrant_collection_name`: base name, underscore, lower-cased metric. -/
def get_qdrant_collection_name (distance : String) : String :=
  COLLECTION_NAME ++ "_" ++ pyLower distance

/-- `Config.get_distance_metrics`. -/
def get_distance_metrics : List String := ["cosine", "euclid", "dot", "manhattan"]

end Config

/-! ## Tag normalization (`src/ollama_client.py`, `OllamaClient.generate_tags`)

`generate_tags` sends the image to the chat endpoint and then post-processes
the returned `content` string.  The post-processing (JSON-array path and
free-text fallback path) is embedded below; the parse outcome of
`json.loads(content)` is the explicit input. -/

/-- A JSON value appearing in the model's response array: a string or anything
else (`isinstance(tag, str)` distinguishes exactly these two cases). -/
inductive PyJson where
  | str (s : String)
  | other
  deriving DecidableEq

/-- Outcome of `json.loads(content)` inside `generate_tags`. -/
inductive ParsedContent where
  | jsonList (arr : List PyJson)
  | jsonOther
  | notJson (content : String)
  deriving DecidableEq

/-- The JSON-array branch: keep string entries with a truthy `tag.strip()`,
clean with `tag.strip().lower()`, drop cleaned tags of length `≤ 1`. -/
def clean_json_tags (arr : List PyJson) : List String :=
  arr.filterMap fun
    | PyJson.str tag =>
        if pyStrip tag ≠ "" then
          let clean_tag := pyLower (pyStrip tag)
          if pyLen clean_tag > 1 then some clean_tag else none
        else none
    | PyJson.other => none

/-- `line.strip().strip("-").strip("*").strip()` from the free-text fallback. -/
def line_clean (line : String) : String :=
  pyStrip (pyStripChar '*' (pyStripChar '-' (pyStrip line)))

/-- The free-text fallback branch of `generate_tags` (before the final
length filter): split into lines, clean each line, split comma lines. -/
def text_fallback_tags (content : String) : List String :=
  (pySplit '\n' content).flatMap fun line0 =>
    let line := line_clean line0
    if line ≠ "" ∧ pyContainsChar line ',' then
      (pySplit ',' line).filterMap fun tag =>
        if pyStrip tag ≠ "" then some (pyLower (pyStrip tag)) else none
    else if line ≠ "" then [pyLower line]
    else []

/-- The response post-processing of `OllamaClient.generate_tags`, as a function
of the parse outcome of the response content.  Returns the `(tags, error)`
pair of the Python function. -/
def generate_tags_postprocess (parsed : ParsedContent) (max_tags : Nat) :
    List String × Option String :=
  match parsed with
  | ParsedContent.jsonList arr => ((clean_json_tags arr).take max_tags, none)
  | ParsedContent.jsonOther => ([], some "Failed to parse tags from response")
  | ParsedContent.notJson content =>
      (((text_fallback_tags content).filter (fun tag => pyLen tag > 1)).take max_tags,
        none)

theorem mem_clean_json_tags {arr : List PyJson} {t : String}
    (ht : t ∈ clean_json_tags arr) :
    ∃ s, t = pyLower (pyStrip s) ∧ pyLen t > 1 := by
  rw [clean_json_tags, List.mem_filterMap] at ht
  obtain ⟨a, _, hf⟩ := ht
  cases a with
  | other => simp at hf
  | str s =>
    dsimp only at hf
    split_ifs at hf with h1 h2
    obtain rfl := Option.some.inj hf
    exact ⟨s, rfl, h2⟩

theorem mem_text_fallback_tags {content : String} {t : String}
    (ht : t ∈ text_fallback_tags content) :
    ∃ s, t = pyLower (pyStrip s) := by
  rw [text_fallback_tags, List.mem_flatMap] at ht
  obtain ⟨line0, _, hin⟩ := ht
  dsimp only at hin
  split_ifs at hin with h1 h2
  · rw [List.mem_filterMap] at hin
    obtain ⟨tag, _, hf⟩ := hin
    split_ifs at hf with h3
    exact ⟨tag, (Option.some.inj hf).symm⟩
  · rw [List.mem_singleton] at hin
    refine ⟨pyStripChar '*' (pyStripChar '-' (pyStrip line0)), ?_⟩
    rw [hin, line_clean]
  · simp at hin

/-- C7: For every tag list produced by the vision-language stage (whether
parsed from a JSON array response or extracted from free-text fallback), each
emitted tag is lower-cased and stripped of surrounding whitespace, and every
tag whose length is ≤ 1 is discarded. -/
theorem claim_C7_tag_normalization (parsed : ParsedContent) (max_tags : Nat)
    (t : String) (ht : t ∈ (generate_tags_postprocess parsed max_tags).1) :
    pyStrip t = t ∧ pyLower t = t ∧ pyLen t > 1 := by
  cases parsed with
  | jsonList arr =>
    simp only [generate_tags_postprocess] at ht
    obtain ⟨s, rfl, hlen⟩ := mem_clean_json_tags (List.take_subset _ _ ht)
    exact ⟨pyStrip_pyLower_pyStrip s, pyLower_pyLower (pyStrip s), hlen⟩
  | jsonOther =>
    simp only [generate_tags_postprocess] at ht
    simp at ht
  | notJson content =>
    simp only [generate_tags_postprocess] at ht
    have ht' := List.take_subset _ _ ht
    rw [List.mem_filter] at ht'
    obtain ⟨hmem, hlen⟩ := ht'
    obtain ⟨s, rfl⟩ := mem_text_fallback_tags hmem
    refine ⟨pyStrip_pyLower_pyStrip s, pyLower_pyLower (pyStrip s), ?_⟩
    simpa using hlen

theorem claim_C7_tag_normalization_witness :
    "berg" ∈
        (generate_tags_postprocess
          (ParsedContent.jsonList [PyJson.str " Berg ", PyJson.str "x"]) 10).1 ∧
      (pyStrip "berg" = "berg" ∧ pyLower "berg" = "berg" ∧ pyLen "berg" > 1) :=
  ⟨by decide,
    claim_C7_tag_normalization
      (ParsedContent.jsonList [PyJson.str " Berg ", PyJson.str "x"]) 10 "berg"
      (by decide)⟩

/-! ## Path handling (`src/utils.py`, `validate_file_path`)

`validate_file_path` compares `os.path.abspath(filepath)` against
`os.path.abspath(allowed_path)` with `str.startswith`.  `abspath`/`normpath`
are embedded following `posixpath` (the container runs on Linux), with the
working directory as an explicit parameter. -/

/-- The component loop of `posixpath.normpath` (`acc` is the reversed
`new_comps` stack). -/
def normComps (initialSlashes : Nat) : List String → List String → List String
  | [], acc => acc.reverse
  | comp :: rest, acc =>
    if comp = "" ∨ comp = "." then normComps initialSlashes rest acc
    else if comp ≠ ".." ∨ (initialSlashes = 0 ∧ acc = []) ∨ acc.head? = some ".." then
      normComps initialSlashes rest (comp :: acc)
    else if acc ≠ [] then normComps initialSlashes rest acc.tail
    else normComps initialSlashes rest acc

/-- `posixpath.normpath`. -/
def normpath (path : String) : String :=
  if path = "" then "."
  else
    let initialSlashes : Nat :=
      if pyStartsWith path "/" then
        if pyStartsWith path "//" ∧ ¬ pyStartsWith path "///" then 2 else 1
      else 0
    let newComps := normComps initialSlashes (pySplit '/' path) []
    let res :=
      (if initialSlashes = 2 then "//" else if initialSlashes = 1 then "/" else "") ++
        String.intercalate "/" newComps
    if res = "" then "." else res

/-- `posixpath.join` for two arguments. -/
def pyJoin (a b : String) : String :=
  if pyStartsWith b "/" then b
  else if a = "" ∨ pyEndsWith a "/" then a ++ b
  else a ++ "/" ++ b

/-- `posixpath.abspath`, with the working directory `cwd` explicit. -/
def abspath (cwd path : String) : String :=
  if pyStartsWith path "/" then normpath path else normpath (pyJoin cwd path)

/-- `utils.validate_file_path`: a path is allowed iff its absolute form starts
(as a string) with the absolute form of some allow-listed path. -/
def validate_file_path (cwd : String) (allowed_paths : List String)
    (filepath : String) : Bool :=
  let abs_path := abspath cwd filepath
  allowed_paths.any fun allowed_path => pyStartsWith abs_path (abspath cwd allowed_path)

/-- Spec-side notion used by the claim: the path lies inside the directory
subtree rooted at `root` (it is the root itself or a descendant). -/
def underRoot (cwd root p : String) : Prop :=
  abspath cwd p = abspath cwd root ∨
    pyStartsWith (abspath cwd p) (abspath cwd root ++ "/") = true

instance (cwd root p : String) : Decidable (underRoot cwd root p) := by
  unfold underRoot
  infer_instance

theorem string_data_append (a b : String) : (a ++ b).data = a.data ++ b.data := rfl

theorem pyStartsWith_of_append_left {s pre extra : String}
    (h : pyStartsWith s (pre ++ extra) = true) : pyStartsWith s pre = true := by
  unfold pyStartsWith at h ⊢
  rw [List.isPrefixOf_iff_prefix] at h ⊢
  rw [string_data_append] at h
  exact (List.prefix_append pre.data extra.data).trans h

/-- C3 (counterexample): with allow-listed root `/data`, the path
`/database/secret` — which is outside the `/data` subtree — passes validation,
because the check is a plain string-prefix comparison of absolute paths. -/
theorem claim_C3_counterexample :
    validate_file_path "/" ["/data"] "/database/secret" = true ∧
      ¬ underRoot "/" "/data" "/database/secret" := by
  decide

/-- C3 (amended): validation passes for every path under an allow-listed
root's subtree — in particular `/data/x/y.jpg` passes and `/etc/passwd` fails
with root `/data` — but the check is a string-prefix comparison of absolute
paths, so it also accepts paths outside every allow-listed subtree whose
absolute form merely extends a root as a string (see the counterexample). -/
theorem claim_C3_path_validation :
    (∀ cwd roots root p, root ∈ roots → underRoot cwd root p →
        validate_file_path cwd roots p = true) ∧
      validate_file_path "/" ["/data"] "/data/x/y.jpg" = true ∧
      validate_file_path "/" ["/data"] "/etc/passwd" = false := by
  refine ⟨?_, by decide, by decide⟩
  intro cwd roots root p hmem hunder
  unfold validate_file_path
  rw [List.any_eq_true]
  refine ⟨root, hmem, ?_⟩
  rcases hunder with h | h
  · rw [h]
    unfold pyStartsWith
    rw [List.isPrefixOf_iff_prefix]
  · exact pyStartsWith_of_append_left h

theorem claim_C3_path_validation_witness :
    validate_file_path "/" ["/data"] "/data/x/y.jpg" = true :=
  claim_C3_path_validation.1 "/" ["/data"] "/data" "/data/x/y.jpg" (by decide)
    (by decide)

/-! ## GPS extraction (`src/utils.py`, `get_gps_coordinates`)

`exifread.process_file` and the EXIF rational values are the oracle input; the
whole body runs inside a `try` whose handler returns `None`, so a raising read
is the `Except.error` case.  Machine floats are idealized as `ℚ`. -/

/-- An EXIF rational value (`.num` / `.den`). -/
structure ExifRat where
  num : Int
  den : Int
  deriving DecidableEq

/-- `float(r.num) / float(r.den)` guarded by `r.den != 0` as in
`_convert_to_degrees`. -/
def exifRatToQ (r : ExifRat) : ℚ :=
  if r.den ≠ 0 then (r.num : ℚ) / (r.den : ℚ) else (r.num : ℚ)

/-- `utils._convert_to_degrees`: sexagesimal rationals to decimal degrees;
`None` when fewer than three components are present. -/
def convert_to_degrees (value : List ExifRat) : Option ℚ :=
  if value.length < 3 then none
  else
    match value with
    | v0 :: v1 :: v2 :: _ =>
        some (exifRatToQ v0 + exifRatToQ v1 / 60 + exifRatToQ v2 / 3600)
    | _ => none

/-- The four GPS tags `get_gps_coordinates` reads from the EXIF dictionary
(each `none` when the tag is absent; for an empty dictionary all four are
`none`, making the `if not tags` short-circuit behaviourally redundant). -/
structure GpsTags where
  latitude : Option (List ExifRat)
  latitudeRef : Option String
  longitude : Option (List ExifRat)
  longitudeRef : Option String
  deriving DecidableEq

/-- `utils.get_gps_coordinates`: `Except.error` models an exception raised by
the file read / EXIF parse, which the surrounding `try` turns into `None`.
An empty `ref.values` string would raise `IndexError` inside the `try`, hence
also `None`. -/
def get_gps_coordinates (readResult : Except String GpsTags) : Option (ℚ × ℚ) :=
  match readResult with
  | Except.error _ => none
  | Except.ok tags =>
    match tags.latitude, tags.latitudeRef, tags.longitude, tags.longitudeRef with
    | some latv, some latr, some lonv, some lonr =>
      match convert_to_degrees latv, convert_to_degrees lonv with
      | some lat, some lon =>
        match latr.data, lonr.data with
        | lc :: _, wc :: _ =>
            some ((if lc = 'S' then -lat else lat), (if wc = 'W' then -lon else lon))
        | _, _ => none
      | _, _ => none
    | _, _, _, _ => none

/-! ## The image pipeline (`src/image_processor.py`, `process_single_image`) -/

/-- `os.path.basename`. -/
def basename (p : String) : String := ((pySplit '/' p).getLast?).getD p

/-- `image_path.lower().endswith(tuple(Config.SUPPORTED_EXTENSIONS))`. -/
def isSupportedPath (p : String) : Bool :=
  Config.SUPPORTED_EXTENSIONS.any fun ext => pyEndsWith (pyLower p) ext

/-- The fields read out of a successful `generate_image_analysis` result. -/
structure AIAnalysis where
  tags : List String
  description : String
  model_used : String
  deriving DecidableEq

/-- The fields read out of a successful `get_image_features` result. -/
structure ClipFeatures where
  embedding : List ℚ
  embedding_dim : Nat
  deriving DecidableEq

/-- Oracle outcomes for the external calls performed by one
`process_single_image` invocation. -/
structure PipelineEnv where
  cwd : String
  allowed_paths : List String
  path_exists : Bool
  image_open : Except String (Nat × Nat × String)
  file_size : Nat
  exif : Except String GpsTags
  geocode : ℚ → ℚ → Option String
  ai : AIAnalysis × Option String
  clip : ClipFeatures × Option String
  upsert : Bool × Option String
  image_id : String
  timestamp : String

/-- The `image_data` record assembled by `process_single_image`. -/
structure ImageRecord where
  image_id : String
  file_path : String
  file_name : String
  file_size : Nat
  width : Nat
  height : Nat
  format : String
  processing_timestamp : String
  gps_coordinates : Option (ℚ × ℚ)
  location_name : Option String
  ai_tags : List String
  ai_description : String
  model_used : String
  embedding : List ℚ
  embedding_dim : Nat
  deriving DecidableEq

/-- The result dictionary of `process_single_image`: an error dictionary or the
success dictionary carrying `image_data`. -/
inductive ProcResult where
  | err (error : String)
  | ok (image_data : ImageRecord) (message : String)
  deriving DecidableEq

/-- `ImageProcessor.process_single_image` as a function of the oracle
environment.  Mirrors the stage order of the source: path validation,
existence, extension check, image read, GPS + geocoding (best effort), AI
analysis, CLIP embedding, Qdrant upsert; error checks use Python truthiness.
The in-file metadata write is a non-fatal file side effect embedded separately
(`user_comment_written`). -/
def process_single_image (env : PipelineEnv) (image_path : String) :
    ProcResult × Option String :=
  if ¬ validate_file_path env.cwd env.allowed_paths image_path then
    (ProcResult.err "File path not allowed", some "File path not allowed")
  else if ¬ env.path_exists then
    (ProcResult.err "File not found", some ("File not found: " ++ image_path))
  else if ¬ isSupportedPath image_path then
    (ProcResult.err "Unsupported image format",
      some ("Unsupported format: " ++ image_path))
  else
    match env.image_open with
    | Except.error e =>
        (ProcResult.err "Failed to read image", some ("Image read error: " ++ e))
    | Except.ok (width, height, format_name) =>
      let gps_coords := get_gps_coordinates env.exif
      let location_name :=
        match gps_coords with
        | some (lat, lon) => env.geocode lat lon
        | none => none
      if truthyStr env.ai.2 then (ProcResult.err "AI analysis failed", env.ai.2)
      else if truthyStr env.clip.2 then
        (ProcResult.err "CLIP processing failed", env.clip.2)
      else
        let image_data : ImageRecord :=
          { image_id := env.image_id
            file_path := abspath env.cwd image_path
            file_name := basename image_path
            file_size := env.file_size
            width := width
            height := height
            format := format_name
            processing_timestamp := env.timestamp
            gps_coordinates := gps_coords
            location_name := location_name
            ai_tags := env.ai.1.tags
            ai_description := env.ai.1.description
            model_used := env.ai.1.model_used
            embedding := env.clip.1.embedding
            embedding_dim := env.clip.1.embedding_dim }
        if truthyStr env.upsert.2 then
          (ProcResult.err "Database storage failed", env.upsert.2)
        else
          (ProcResult.ok image_data ("Successfully processed " ++ basename image_path),
            none)

/-- C2: For every supported-format image whose file carries no GPS EXIF data,
`process_single_image` sets `gps_coordinates = None` and
`location_name = None` in the produced record and continues through the
remaining pipeline stages rather than aborting; likewise any failure inside
GPS extraction (a raising EXIF read) or geocoding leaves those fields empty
without aborting the pipeline. -/
theorem claim_C2_gps_best_effort (env : PipelineEnv) (image_path : String)
    (hval : validate_file_path env.cwd env.allowed_paths image_path = true)
    (hex : env.path_exists = true)
    (hsup : isSupportedPath image_path = true)
    (w h : Nat) (fmt : String) (hopen : env.image_open = Except.ok (w, h, fmt))
    (hai : truthyStr env.ai.2 = false)
    (hclip : truthyStr env.clip.2 = false)
    (hup : truthyStr env.upsert.2 = false) :
    (∀ e, get_gps_coordinates (Except.error e) = none) ∧
      (process_single_image env image_path).2 = none ∧
      ∃ rec msg, (process_single_image env image_path).1 = ProcResult.ok rec msg ∧
        rec.gps_coordinates = get_gps_coordinates env.exif ∧
        (get_gps_coordinates env.exif = none →
          rec.gps_coordinates = none ∧ rec.location_name = none) ∧
        (∀ lat lon, get_gps_coordinates env.exif = some (lat, lon) →
          env.geocode lat lon = none → rec.location_name = none) := by
  have hres : process_single_image env image_path =
      (ProcResult.ok
        { image_id := env.image_id, file_path := abspath env.cwd image_path,
          file_name := basename image_path, file_size := env.file_size,
          width := w, height := h, format := fmt,
          processing_timestamp := env.timestamp,
          gps_coordinates := get_gps_coordinates env.exif,
          location_name :=
            match get_gps_coordinates env.exif with
            | some (lat, lon) => env.geocode lat lon
            | none => none,
          ai_tags := env.ai.1.tags, ai_description := env.ai.1.description,
          model_used := env.ai.1.model_used, embedding := env.clip.1.embedding,
          embedding_dim := env.clip.1.embedding_dim }
        ("Successfully processed " ++ basename image_path), none) := by
    unfold process_single_image
    rw [hopen]
    simp [hval, hex, hsup, hai, hclip, hup]
  refine ⟨fun _ => rfl, by rw [hres], _, _, by rw [hres], rfl, ?_, ?_⟩
  · intro hnone
    refine ⟨hnone, ?_⟩
    simp [hnone]
  · intro lat lon hsome hgeo
    simp [hsome, hgeo]

/-- A concrete oracle environment: all stages succeed, the EXIF read raises. -/
def c2WitnessEnv : PipelineEnv :=
  { cwd := "/", allowed_paths := ["/"], path_exists := true,
    image_open := Except.ok (10, 20, "JPEG"), file_size := 5,
    exif := Except.error "no exif data",
    geocode := fun _ _ => none,
    ai := (⟨["gipfel"], "ein bild", "mistral"⟩, none),
    clip := (⟨[1, 0], 2⟩, none), upsert := (true, none),
    image_id := "id-1", timestamp := "2024-01-01T00:00:00" }

theorem claim_C2_gps_best_effort_witness :
    (∀ e, get_gps_coordinates (Except.error e) = none) ∧
      (process_single_image c2WitnessEnv "/img/a.jpg").2 = none ∧
      ∃ rec msg,
        (process_single_image c2WitnessEnv "/img/a.jpg").1 = ProcResult.ok rec msg ∧
          rec.gps_coordinates = get_gps_coordinates c2WitnessEnv.exif ∧
          (get_gps_coordinates c2WitnessEnv.exif = none →
            rec.gps_coordinates = none ∧ rec.location_name = none) ∧
          (∀ lat lon, get_gps_coordinates c2WitnessEnv.exif = some (lat, lon) →
            c2WitnessEnv.geocode lat lon = none → rec.location_name = none) :=
  claim_C2_gps_best_effort c2WitnessEnv "/img/a.jpg" (by decide) rfl (by decide)
    10 20 "JPEG" rfl rfl rfl rfl

/-! ## The search router (`src/image_processor.py`, `search_images`) -/

/-- One ranked hit as handed back by the vector-store adapter; `ai_tags` is
`result["payload"].get("ai_tags", [])`. -/
structure SearchHit where
  id : String
  score : ℚ
  ai_tags : List String
  deriving DecidableEq

/-- Oracles used by `search_images`: the bare text-embedding call (note: not a
pair — errors inside it are only logged) and the vector-store search call. -/
structure SearchEnv where
  text_embed : String → List ℚ
  search : List ℚ → Nat → List SearchHit × Option String

/-- The result dictionary of `search_images`. -/
inductive SearchOut where
  | err (error : String)
  | ok (query : String) (results : List SearchHit) (total_found : Nat) (limit : Nat)
  deriving DecidableEq

/-- The reassignment
`if text_query and not query_embedding: query_embedding = ...` at the top of
`search_images`. -/
def effective_embedding (env : SearchEnv) (query_embedding : Option (List ℚ))
    (text_query : Option String) : Option (List ℚ) :=
  if truthyStr text_query && !truthyList query_embedding then
    some (env.text_embed (text_query.getD ""))
  else query_embedding

/-- The per-record tag check of the filter:
`any(tag.lower() in [t.lower() for t in result_tags] for tag in tags)`. -/
def tag_match (tags result_tags : List String) : Bool :=
  tags.any fun tag => (result_tags.map pyLower).contains (pyLower tag)

/-- `ImageProcessor.search_images` as a function of the oracle environment. -/
def search_images (env : SearchEnv) (query_embedding : Option (List ℚ))
    (text_query : Option String) (tags : Option (List String)) (limit : Nat) :
    SearchOut × Option String :=
  let qe := effective_embedding env query_embedding text_query
  if ¬ truthyList qe then
    (SearchOut.err "No query provided",
      some "Please provide either text query or embedding")
  else
    match env.search (qe.getD []) limit with
    | (results, error) =>
      if truthyStr error then (SearchOut.err "Search failed", error)
      else
        let results2 :=
          if truthyList tags then
            results.filter fun r => tag_match (tags.getD []) r.ai_tags
          else results
        (SearchOut.ok (if truthyStr text_query then text_query.getD "" else "embedding")
            results2 results2.length limit,
          none)

/-- Spec-side predicate of C1: the stored tag set has a case-insensitive
non-empty intersection with the supplied tags. -/
def tag_intersects (tags result_tags : List String) : Prop :=
  ∃ t ∈ tags, ∃ s ∈ result_tags, pyLower t = pyLower s

instance (tags result_tags : List String) :
    Decidable (tag_intersects tags result_tags) := by
  unfold tag_intersects
  infer_instance

/-- The code's Boolean check agrees with the spec-side intersection predicate. -/
theorem tag_match_iff (tags result_tags : List String) :
    tag_match tags result_tags = true ↔ tag_intersects tags result_tags := by
  unfold tag_match tag_intersects
  rw [List.any_eq_true]
  constructor
  · rintro ⟨t, ht, hc⟩
    have hc2 : pyLower t ∈ List.map pyLower result_tags := List.elem_iff.mp hc
    rw [List.mem_map] at hc2
    obtain ⟨s, hs, he⟩ := hc2
    exact ⟨t, ht, s, hs, he.symm⟩
  · rintro ⟨t, ht, s, hs, he⟩
    refine ⟨t, ht, ?_⟩
    apply List.elem_iff.mpr
    rw [List.mem_map]
    exact ⟨s, hs, he.symm⟩

/-- C1: For every search call that supplies a (non-empty) tag list,
`search_images` filters the ranked result list returned by the vector store to
exactly those records whose stored `ai_tags` set has a case-insensitive
non-empty intersection with the supplied tags, preserving the original rank
order of the surviving records (the output is a sublist of the store's ranked
list); records without a matching tag are excluded even if they scored higher
on raw vector similarity. -/
theorem claim_C1_tag_filter (env : SearchEnv) (query_embedding : Option (List ℚ))
    (text_query : Option String) (ts : List String) (limit : Nat)
    (v : List ℚ) (rs : List SearchHit)
    (hqe : effective_embedding env query_embedding text_query = some v)
    (hv : v ≠ [])
    (hsearch : env.search v limit = (rs, none))
    (hts : ts ≠ []) :
    ∃ q,
      search_images env query_embedding text_query (some ts) limit =
        (SearchOut.ok q (rs.filter fun r => decide (tag_intersects ts r.ai_tags))
          (rs.filter fun r => decide (tag_intersects ts r.ai_tags)).length limit,
          none) ∧
      List.Sublist (rs.filter fun r => decide (tag_intersects ts r.ai_tags)) rs ∧
      ∀ r ∈ rs,
        (r ∈ rs.filter fun r => decide (tag_intersects ts r.ai_tags)) ↔
          tag_intersects ts r.ai_tags := by
  have hfilter :
      (rs.filter fun r => tag_match ts r.ai_tags) =
        rs.filter fun r => decide (tag_intersects ts r.ai_tags) := by
    apply List.filter_congr
    intro r _
    rw [Bool.eq_iff_iff, decide_eq_true_iff]
    exact tag_match_iff ts r.ai_tags
  have htl : truthyList (some v) = true := by
    cases v with
    | nil => exact absurd rfl hv
    | cons a t => rfl
  have httags : truthyList (some ts) = true := by
    cases ts with
    | nil => exact absurd rfl hts
    | cons a t => rfl
  refine ⟨if truthyStr text_query then text_query.getD "" else "embedding", ?_, ?_, ?_⟩
  · unfold search_images
    rw [hqe]
    simp only [htl, httags, hsearch, Option.getD_some, not_true, Bool.not_true,
      Bool.false_eq_true, if_false, if_true, ite_true, ite_false]
    simp [hfilter, truthyStr]
  · exact hfilter ▸ List.filter_sublist rs
  · intro r hr
    rw [List.mem_filter]
    simp [hr]

theorem claim_C1_tag_filter_witness :
    ∃ q,
      search_images
          { text_embed := fun _ => [1, 0],
            search := fun _ _ =>
              ([⟨"a", 9/10, ["Schnee", "berg"]⟩, ⟨"b", 8/10, ["stadt"]⟩,
                ⟨"c", 7/10, ["snow"]⟩], none) }
          (some [1, 0]) none (some ["snow"]) 10 =
        (SearchOut.ok q
          (([⟨"a", 9/10, ["Schnee", "berg"]⟩, ⟨"b", 8/10, ["stadt"]⟩,
              ⟨"c", 7/10, ["snow"]⟩] : List SearchHit).filter
            fun r => decide (tag_intersects ["snow"] r.ai_tags))
          (([⟨"a", 9/10, ["Schnee", "berg"]⟩, ⟨"b", 8/10, ["stadt"]⟩,
              ⟨"c", 7/10, ["snow"]⟩] : List SearchHit).filter
            fun r => decide (tag_intersects ["snow"] r.ai_tags)).length 10,
          none) ∧
      List.Sublist
        (([⟨"a", 9/10, ["Schnee", "berg"]⟩, ⟨"b", 8/10, ["stadt"]⟩,
            ⟨"c", 7/10, ["snow"]⟩] : List SearchHit).filter
          fun r => decide (tag_intersects ["snow"] r.ai_tags))
        [⟨"a", 9/10, ["Schnee", "berg"]⟩, ⟨"b", 8/10, ["stadt"]⟩,
          ⟨"c", 7/10, ["snow"]⟩] ∧
      ∀ r ∈ ([⟨"a", 9/10, ["Schnee", "berg"]⟩, ⟨"b", 8/10, ["stadt"]⟩,
          ⟨"c", 7/10, ["snow"]⟩] : List SearchHit),
        (r ∈ ([⟨"a", 9/10, ["Schnee", "berg"]⟩, ⟨"b", 8/10, ["stadt"]⟩,
            ⟨"c", 7/10, ["snow"]⟩] : List SearchHit).filter
          fun r => decide (tag_intersects ["snow"] r.ai_tags)) ↔
          tag_intersects ["snow"] r.ai_tags :=
  claim_C1_tag_filter _ (some [1, 0]) none ["snow"] 10 [1, 0]
    [⟨"a", 9/10, ["Schnee", "berg"]⟩, ⟨"b", 8/10, ["stadt"]⟩, ⟨"c", 7/10, ["snow"]⟩]
    rfl (by simp) rfl (by simp)

/-- C5: For every call to `search_images` that supplies no vector-bearing
input — no (truthy) query embedding and no (truthy) query text, including a
call that supplies only a tag list — the operation fails with the
no-query-provided error and returns no result list. -/
theorem claim_C5_no_query (env : SearchEnv) (query_embedding : Option (List ℚ))
    (text_query : Option String) (tags : Option (List String)) (limit : Nat)
    (h1 : truthyStr text_query = false) (h2 : truthyList query_embedding = false) :
    search_images env query_embedding text_query tags limit =
      (SearchOut.err "No query provided",
        some "Please provide either text query or embedding") := by
  unfold search_images effective_embedding
  rw [h1]
  simp [h2]

theorem claim_C5_no_query_witness :
    search_images
        { text_embed := fun _ => [1, 0], search := fun _ _ => ([], none) }
        none none (some ["snow"]) 10 =
      (SearchOut.err "No query provided",
        some "Please provide either text query or embedding") :=
  claim_C5_no_query _ none none (some ["snow"]) 10 rfl rfl

/-! ## The bulk runner (`src/image_processor.py`, `process_bulk_images`)

The `os.walk` enumeration (with the `max_images` cut) is filesystem I/O and
enters as the oracle list `files`; everything from the emptiness check on is
embedded.  The wall-clock `start_time`/`end_time` fields are omitted. -/

/-- One per-file entry of the bulk summary (`status` is the constructor). -/
inductive BulkEntry where
  | success (image_path : String) (data : Option ImageRecord)
  | failure (image_path : String) (error : String)
  deriving DecidableEq

/-- The accumulating summary dictionary of `process_bulk_images`. -/
structure BulkResults where
  total_images : Nat
  processed : Nat
  failed : Nat
  results : List BulkEntry
  deriving DecidableEq

/-- The bulk result: an error dictionary or the summary. -/
inductive BulkOut where
  | err (error : String)
  | ok (r : BulkResults)
  deriving DecidableEq

/-- Oracles for one `process_bulk_images` call: directory checks, the
enumerated supported files, and the per-file pipeline environment. -/
structure BulkEnv where
  cwd : String
  allowed_paths : List String
  isdir : Bool
  files : List String
  envOf : String → PipelineEnv

/-- `result.get("image_data", {})` on the per-file result. -/
def bulk_data (result : ProcResult) : Option ImageRecord :=
  match result with
  | ProcResult.ok d _ => some d
  | ProcResult.err _ => none

/-- The per-file entry appended by the loop body of `process_bulk_images`. -/
def bulk_entry (env : BulkEnv) (image_path : String) : BulkEntry :=
  match process_single_image (env.envOf image_path) image_path with
  | (result, error) =>
    if truthyStr error then BulkEntry.failure image_path (error.getD "")
    else BulkEntry.success image_path (bulk_data result)

/-- Whether `process_single_image` reported an error for this file. -/
def fileFailed (env : BulkEnv) (image_path : String) : Bool :=
  truthyStr (process_single_image (env.envOf image_path) image_path).2

/-- The loop body of `process_bulk_images`. -/
def bulk_step (env : BulkEnv) (acc : BulkResults) (image_path : String) :
    BulkResults :=
  match process_single_image (env.envOf image_path) image_path with
  | (result, error) =>
    if truthyStr error then
      { acc with
        failed := acc.failed + 1
        results := acc.results ++ [BulkEntry.failure image_path (error.getD "")] }
    else
      { acc with
        processed := acc.processed + 1
        results := acc.results ++ [BulkEntry.success image_path (bulk_data result)] }

/-- `ImageProcessor.process_bulk_images` as a function of the oracle
environment. -/
def process_bulk_images (env : BulkEnv) (directory_path : String) :
    BulkOut × Option String :=
  if ¬ validate_file_path env.cwd env.allowed_paths directory_path then
    (BulkOut.err "Directory path not allowed", some "Directory path not allowed")
  else if ¬ env.isdir then
    (BulkOut.err "Directory not found", some ("Directory not found: " ++ directory_path))
  else if env.files = [] then
    (BulkOut.err "No images found", some "No supported image files found in directory")
  else
    (BulkOut.ok (env.files.foldl (bulk_step env)
      { total_images := env.files.length, processed := 0, failed := 0, results := [] }),
      none)

theorem length_filter_not_add_length_filter (p : α → Bool) (l : List α) :
    (l.filter fun a => !p a).length + (l.filter p).length = l.length := by
  induction l with
  | nil => rfl
  | cons a t ih =>
    cases ha : p a <;> simp [List.filter_cons, ha] <;> omega

theorem bulk_foldl_spec (env : BulkEnv) :
    ∀ (files : List String) (acc : BulkResults),
      files.foldl (bulk_step env) acc =
        { total_images := acc.total_images,
          processed := acc.processed + (files.filter fun f => !fileFailed env f).length,
          failed := acc.failed + (files.filter fun f => fileFailed env f).length,
          results := acc.results ++ files.map (bulk_entry env) } := by
  intro files
  induction files with
  | nil =>
    intro acc
    simp
  | cons f t ih =>
    intro acc
    rw [List.foldl_cons, ih]
    unfold bulk_step bulk_entry fileFailed
    cases hpr : process_single_image (env.envOf f) f with
    | mk result error =>
      by_cases herr : truthyStr error = true
      · simp only [herr, if_true, List.filter_cons, List.map_cons]
        simp [hpr, herr]
        omega
      · rw [Bool.not_eq_true] at herr
        simp only [herr, if_false, List.filter_cons, List.map_cons]
        simp [hpr, herr]
        omega

/-- C6: For every directory whose enumerated supported-extension files contain
some that process successfully and some that fail, `process_bulk_images`
processes every enumerated file without aborting on the first failure
(the summary has one entry per enumerated file, in order), and the returned
summary reports `processed` equal to the number of successes and `failed`
equal to the number of failures, with each failed file's specific error
message recorded in its per-file entry. -/
theorem claim_C6_bulk_summary (env : BulkEnv) (directory_path : String)
    (hval : validate_file_path env.cwd env.allowed_paths directory_path = true)
    (hdir : env.isdir = true)
    (hne : env.files ≠ []) :
    ∃ r, process_bulk_images env directory_path = (BulkOut.ok r, none) ∧
      r.total_images = env.files.length ∧
      r.processed = (env.files.filter fun f => !fileFailed env f).length ∧
      r.failed = (env.files.filter fun f => fileFailed env f).length ∧
      r.processed + r.failed = env.files.length ∧
      r.results = env.files.map (bulk_entry env) ∧
      ∀ f ∈ env.files, fileFailed env f = true →
        BulkEntry.failure f
            (((process_single_image (env.envOf f) f).2).getD "") ∈ r.results := by
  have hf := bulk_foldl_spec env env.files
    { total_images := env.files.length, processed := 0, failed := 0, results := [] }
  refine ⟨env.files.foldl (bulk_step env)
    { total_images := env.files.length, processed := 0, failed := 0, results := [] },
    ?_, ?_, ?_, ?_, ?_, ?_, ?_⟩
  · unfold process_bulk_images
    simp [hval, hdir, hne]
  · rw [hf]
  · rw [hf]
    simp
  · rw [hf]
    simp
  · rw [hf]
    simp [length_filter_not_add_length_filter]
  · rw [hf]
    simp
  · intro f hfmem hfail
    rw [hf]
    simp only [List.nil_append]
    rw [List.mem_map]
    refine ⟨f, hfmem, ?_⟩
    unfold bulk_entry
    unfold fileFailed at hfail
    cases hpr : process_single_image (env.envOf f) f with
    | mk result error =>
      rw [hpr] at hfail
      simp only [hfail, if_true]

/-- A pipeline environment in which every stage succeeds. -/
def c6GoodEnv : PipelineEnv :=
  { cwd := "/", allowed_paths := ["/"], path_exists := true,
    image_open := Except.ok (10, 20, "JPEG"), file_size := 5,
    exif := Except.error "no exif data",
    geocode := fun _ _ => none,
    ai := (⟨["gipfel"], "ein bild", "mistral"⟩, none),
    clip := (⟨[1, 0], 2⟩, none), upsert := (true, none),
    image_id := "id-1", timestamp := "2024-01-01T00:00:00" }

/-- As `c6GoodEnv`, but `Image.open` raises (a corrupt file). -/
def c6BadEnv : PipelineEnv :=
  { c6GoodEnv with image_open := Except.error "cannot identify image file" }

/-- A bulk run over three processable images and one corrupt file. -/
def c6Env : BulkEnv :=
  { cwd := "/", allowed_paths := ["/"], isdir := true,
    files := ["/img/a.jpg", "/img/b.jpg", "/img/c.jpg", "/img/corrupt.jpg"],
    envOf := fun f => if f = "/img/corrupt.jpg" then c6BadEnv else c6GoodEnv }

theorem claim_C6_bulk_summary_witness :
    (∃ r, process_bulk_images c6Env "/img" = (BulkOut.ok r, none) ∧
      r.total_images = c6Env.files.length ∧
      r.processed = (c6Env.files.filter fun f => !fileFailed c6Env f).length ∧
      r.failed = (c6Env.files.filter fun f => fileFailed c6Env f).length ∧
      r.processed + r.failed = c6Env.files.length ∧
      r.results = c6Env.files.map (bulk_entry c6Env) ∧
      ∀ f ∈ c6Env.files, fileFailed c6Env f = true →
        BulkEntry.failure f
            (((process_single_image (c6Env.envOf f) f).2).getD "") ∈ r.results) ∧
      (c6Env.files.filter fun f => !fileFailed c6Env f).length = 3 ∧
      (c6Env.files.filter fun f => fileFailed c6Env f).length = 1 ∧
      (process_single_image (c6Env.envOf "/img/corrupt.jpg") "/img/corrupt.jpg").2 =
        some "Image read error: cannot identify image file" :=
  ⟨claim_C6_bulk_summary c6Env "/img" (by decide) rfl (by decide),
    by decide, by decide, by decide⟩

/-! ## Error propagation shapes (claim C4)

The spec's propagation policy says every stage returns a `(result, error)`
pair and never raises.  Two adapter operations cited by the claim do not
follow it: `QdrantManager.__init__` re-raises on a failed client construction
(`raise Exception(f"Failed to connect to Qdrant: {e}")`), and
`CLIPProcessor.get_text_embedding` returns a bare embedding array, swallowing
errors (`except: print(...); return np.array([])`). -/

/-- The state `QdrantManager.__init__` would construct on success. -/
structure QdrantManagerState where
  host : String
  port : Nat
  collection_name : String
  distance_metrics : List String
  collections_created : Bool
  deriving DecidableEq

/-- `QdrantManager.__init__`: `Except.error` models the re-raised exception
escaping the constructor when the `QdrantClient(...)` call fails. -/
def qdrant_manager_init (client_connect : Except String Unit) :
    Except String QdrantManagerState :=
  match client_connect with
  | Except.ok _ =>
      Except.ok ⟨Config.QDRANT_HOST, Config.QDRANT_PORT, Config.COLLECTION_NAME,
        Config.get_distance_metrics, false⟩
  | Except.error e => Except.error ("Failed to connect to Qdrant: " ++ e)

/-- `CLIPProcessor.get_text_embedding`: returns the bare embedding; on an
encoding failure the error is printed and an empty array is returned — no
`(result, error)` pair reaches the caller. -/
def get_text_embedding (encode : Except String (List ℚ)) : List ℚ :=
  match encode with
  | Except.ok emb => emb
  | Except.error _ => []

/-- C4 (counterexample): `QdrantManager.__init__` propagates a raised
exception out of the call instead of returning a `(result, error)` pair, and
`CLIPProcessor.get_text_embedding` returns a bare array with the error
swallowed — so not every stage/adapter operation returns a pair. -/
theorem claim_C4_counterexample :
    qdrant_manager_init (Except.error "connection refused") =
        Except.error "Failed to connect to Qdrant: connection refused" ∧
      get_text_embedding (Except.error "model failure") = [] :=
  ⟨rfl, rfl⟩

theorem truthyStr_ne_none {o : Option String} (h : truthyStr o = true) : o ≠ none := by
  cases o with
  | none => exact absurd h (by simp [truthyStr])
  | some s => simp

/-- C4 (amended): the pipeline, bulk and search operations themselves do
return `(result, error)` pairs for every input and no exception escapes them:
`process_single_image`'s and `search_images`' error channel is `none` exactly
when all their stages succeed, and `process_bulk_images`' error channel is
`none` exactly when the directory validation and existence checks pass and at
least one supported file is enumerated — a per-file failure is recorded in
the summary, not in the bulk error channel.  But the adapters are not
uniform: `QdrantManager.__init__` (and `CLIPProcessor.__init__`) re-raise on
construction failure, and `CLIPProcessor.get_text_embedding` returns a bare
embedding array with errors only logged (see the counterexample). -/
theorem claim_C4_result_error_pairs :
    (∀ (env : PipelineEnv) (image_path : String),
      (process_single_image env image_path).2 = none ↔
        (validate_file_path env.cwd env.allowed_paths image_path = true ∧
          env.path_exists = true ∧ isSupportedPath image_path = true ∧
          (∃ img, env.image_open = Except.ok img) ∧
          truthyStr env.ai.2 = false ∧ truthyStr env.clip.2 = false ∧
          truthyStr env.upsert.2 = false)) ∧
      (∀ (env : BulkEnv) (directory_path : String),
        (process_bulk_images env directory_path).2 = none ↔
          (validate_file_path env.cwd env.allowed_paths directory_path = true ∧
            env.isdir = true ∧ env.files ≠ [])) ∧
      (∀ (env : SearchEnv) (query_embedding : Option (List ℚ))
          (text_query : Option String) (tags : Option (List String)) (limit : Nat),
        (search_images env query_embedding text_query tags limit).2 = none ↔
          (truthyList (effective_embedding env query_embedding text_query) = true ∧
            truthyStr
              (env.search ((effective_embedding env query_embedding text_query).getD [])
                limit).2 = false)) := by
  refine ⟨?_, ?_, ?_⟩
  · intro env image_path
    unfold process_single_image
    by_cases h1 : validate_file_path env.cwd env.allowed_paths image_path = true
    case neg =>
      rw [Bool.not_eq_true] at h1
      simp [h1]
    case pos =>
    simp only [h1, not_true, if_false, ite_false, true_and]
    by_cases h2 : env.path_exists = true
    case neg =>
      rw [Bool.not_eq_true] at h2
      simp [h2]
    case pos =>
    simp only [h2, not_true, if_false, ite_false, true_and]
    by_cases h3 : isSupportedPath image_path = true
    case neg =>
      rw [Bool.not_eq_true] at h3
      simp [h3]
    case pos =>
    simp only [h3, not_true, if_false, ite_false, true_and]
    cases hopen : env.image_open with
    | error e => simp [hopen]
    | ok img =>
      obtain ⟨w, h, fmt⟩ := img
      simp only [hopen, Except.ok.injEq, exists_eq', true_and]
      by_cases hai : truthyStr env.ai.2 = true
      case pos => simp [hai, truthyStr_ne_none hai]
      case neg =>
      rw [Bool.not_eq_true] at hai
      simp only [hai, Bool.false_eq_true, if_false, ite_false, true_and]
      by_cases hclip : truthyStr env.clip.2 = true
      case pos => simp [hclip, truthyStr_ne_none hclip]
      case neg =>
      rw [Bool.not_eq_true] at hclip
      simp only [hclip, Bool.false_eq_true, if_false, ite_false, true_and]
      by_cases hup : truthyStr env.upsert.2 = true
      case pos => simp [hup, truthyStr_ne_none hup]
      case neg =>
      rw [Bool.not_eq_true] at hup
      simp [hup]
  · intro env directory_path
    unfold process_bulk_images
    by_cases h1 : validate_file_path env.cwd env.allowed_paths directory_path = true
    case neg =>
      rw [Bool.not_eq_true] at h1
      simp [h1]
    case pos =>
    simp only [h1, not_true, if_false, ite_false, true_and]
    by_cases h2 : env.isdir = true
    case neg =>
      rw [Bool.not_eq_true] at h2
      simp [h2]
    case pos =>
    simp only [h2, not_true, if_false, ite_false, true_and]
    by_cases h3 : env.files = []
    · simp [h3]
    · simp [h3]
  · intro env query_embedding text_query tags limit
    unfold search_images
    by_cases h1 : truthyList (effective_embedding env query_embedding text_query) = true
    case neg =>
      rw [Bool.not_eq_true] at h1
      simp [h1]
    case pos =>
    simp only [h1, not_true, if_false, ite_false, true_and]
    cases hs : env.search ((effective_embedding env query_embedding text_query).getD [])
      limit with
    | mk results error =>
      by_cases herr : truthyStr error = true
      case pos => simp [hs, herr, truthyStr_ne_none herr]
      case neg =>
        rw [Bool.not_eq_true] at herr
        simp [hs, herr]

/-! ## In-file metadata writing (`src/utils.py`, `extract_and_add_metadata`)

`extract_and_add_metadata(image_path, tags)` computes
`tags_str = ", ".join(sorted(list(set(tags))))` and writes `tags_str` into the
EXIF `UserComment` (JPEG/TIFF) or the `Keywords` iTXt chunk (PNG).
`process_single_image` passes the `metadata_to_add` *dictionary* as `tags`;
iterating a Python dictionary yields its keys, so `set(tags)` is the key set
and the values are discarded. -/

/-- Code-point comparison of characters (Python string ordering). -/
def charLt (a b : Char) : Bool := Nat.blt a.toNat b.toNat

/-- Lexicographic `<` on character lists, by code point (Python `str < str`). -/
def strLtList : List Char → List Char → Bool
  | [], [] => false
  | [], _ :: _ => true
  | _ :: _, [] => false
  | a :: as, b :: bs =>
      if charLt a b then true else if charLt b a then false else strLtList as bs

/-- Python `a <= b` on strings. -/
def pyStrLe (a b : String) : Bool := !(strLtList b.data a.data)

/-- Insertion step of a stable ascending sort (Python `sorted` on the
distinct elements of a set). -/
def insertSorted (a : String) : List String → List String
  | [] => [a]
  | b :: t => if pyStrLe a b then a :: b :: t else b :: insertSorted a t

/-- Ascending sort by repeated insertion. -/
def pySorted (l : List String) : List String := l.foldr insertSorted []

/-- `sorted(list(set(l)))`: the distinct elements in ascending order. -/
def pySortedSet (l : List String) : List String := pySorted l.eraseDups

/-- `", ".join(sorted(list(set(tags))))` from `extract_and_add_metadata`. -/
def tags_str_of (tags : List String) : String :=
  String.intercalate ", " (pySortedSet tags)

/-- Iterating a Python dictionary yields its keys. -/
def pyDictKeys (d : List (String × String)) : List String := d.map Prod.fst

/-- The `metadata_to_add` dictionary assembled by `process_single_image`
(insertion order; GPS entries only when coordinates are present). -/
def metadata_to_add (data : ImageRecord) : List (String × String) :=
  [("AI Description", data.ai_description),
    ("AI Tags", String.intercalate ", " data.ai_tags),
    ("Processing Date", data.processing_timestamp)] ++
  (match data.gps_coordinates with
    | some (lat, lon) =>
        [("GPS Latitude", toString lat), ("GPS Longitude", toString lon)]
    | none => [])

/-- The string `extract_and_add_metadata` writes into the image file when
`process_single_image` passes it the `metadata_to_add` dictionary. -/
def user_comment_written (data : ImageRecord) : String :=
  tags_str_of (pyDictKeys (metadata_to_add data))

/-- Which in-file field receives `tags_str`, by image format. -/
def metadata_write_target (format : String) : Option String :=
  if format = "JPEG" ∨ format = "TIFF" then some "Exif.UserComment"
  else if format = "PNG" then some "Info.Keywords"
  else none

/-- C10: For every successfully processed image, the string the pipeline
writes into the image file's own metadata (EXIF `UserComment` for JPEG/TIFF,
the `Keywords` iTXt chunk for PNG) is the comma-joined, sorted, deduplicated
set of the KEYS of the metadata dictionary passed by `process_single_image` —
the field names such as `AI Description` — because `extract_and_add_metadata`
iterates its argument as a collection of tag strings; the AI tag values and
description text never appear in the written string, whatever their values. -/
theorem claim_C10_metadata_keys (data : ImageRecord) :
    (data.gps_coordinates = none →
      user_comment_written data = "AI Description, AI Tags, Processing Date") ∧
      (∀ lat lon, data.gps_coordinates = some (lat, lon) →
        user_comment_written data =
          "AI Description, AI Tags, GPS Latitude, GPS Longitude, Processing Date") ∧
      metadata_write_target "JPEG" = some "Exif.UserComment" ∧
      metadata_write_target "TIFF" = some "Exif.UserComment" ∧
      metadata_write_target "PNG" = some "Info.Keywords" := by
  refine ⟨?_, ?_, by decide, by decide, by decide⟩
  · intro h
    unfold user_comment_written metadata_to_add pyDictKeys
    rw [h]
    show tags_str_of ["AI Description", "AI Tags", "Processing Date"] = _
    decide
  · intro lat lon h
    unfold user_comment_written metadata_to_add pyDictKeys
    rw [h]
    show tags_str_of
      ["AI Description", "AI Tags", "Processing Date", "GPS Latitude", "GPS Longitude"] = _
    decide

theorem claim_C10_metadata_keys_witness :
    user_comment_written
        { image_id := "id-1", file_path := "/img/a.jpg", file_name := "a.jpg",
          file_size := 5, width := 10, height := 20, format := "JPEG",
          processing_timestamp := "2024-01-01T00:00:00",
          gps_coordinates := none, location_name := none,
          ai_tags := ["gipfel", "schnee"], ai_description := "Ein Bild",
          model_used := "mistral", embedding := [1, 0], embedding_dim := 2 } =
      "AI Description, AI Tags, Processing Date" :=
  (claim_C10_metadata_keys _).1 rfl

/-! ## The vector store adapter (`src/qdrant_manager.py`)

The Qdrant client/server is external; it is modelled from the spec as an
in-memory exact store: named collections, each with a configured vector
dimension and distance metric, holding id-keyed points.  The adapter methods
(`create_collections`, `upsert_image`) are embedded from the source on top of
this model. -/

/-- The four distance metrics of `models.Distance`. -/
inductive QDistance where
  | cosine
  | euclid
  | dot
  | manhattan
  deriving DecidableEq

/-- The stored payload (`utils.create_payload`). -/
structure Payload where
  image_id : String
  file_path : String
  file_name : String
  file_size : Nat
  width : Nat
  height : Nat
  format : String
  processing_timestamp : String
  gps_coordinates : Option (ℚ × ℚ)
  location_name : Option String
  ai_tags : List String
  ai_description : String
  model_used : String
  embedding_dim : Nat
  processed_at : String
  source_type : String
  deriving DecidableEq

/-- `utils.create_payload` applied to the assembled record;
`file_path_exists` is the `os.path.exists` probe deciding `source_type` and
`processed_at` the `datetime.now()` stamp. -/
def create_payload (image_data : ImageRecord) (file_path_exists : Bool)
    (processed_at : String) : Payload :=
  { image_id := image_data.image_id
    file_path := image_data.file_path
    file_name := image_data.file_name
    file_size := image_data.file_size
    width := image_data.width
    height := image_data.height
    format := image_data.format
    processing_timestamp := image_data.processing_timestamp
    gps_coordinates := image_data.gps_coordinates
    location_name := image_data.location_name
    ai_tags := image_data.ai_tags
    ai_description := image_data.ai_description
    model_used := image_data.model_used
    embedding_dim := image_data.embedding_dim
    processed_at := processed_at
    source_type := if file_path_exists then "upload" else "processing" }

/-- A stored point. -/
structure QPoint where
  id : String
  vector : List ℚ
  payload : Payload
  deriving DecidableEq

/-- A collection: configured dimension, distance metric, stored points. -/
structure QCollection where
  dim : Nat
  distance : QDistance
  points : List QPoint
  deriving DecidableEq

/-- The store: named collections. -/
abbrev QStore := List (String × QCollection)

def lookupCol (st : QStore) (name : String) : Option QCollection :=
  (st.find? fun p => p.1 == name).map Prod.snd

def collection_exists (st : QStore) (name : String) : Bool :=
  (lookupCol st name).isSome

/-- Replace the collection stored under `name`. -/
def storeUpdate (name : String) (newCol : QCollection) : QStore → QStore
  | [] => []
  | (k, c) :: rest =>
      if k = name then (k, newCol) :: storeUpdate name newCol rest
      else (k, c) :: storeUpdate name newCol rest

/-- Modelled from the spec: the server-side create-collection call of the
vector store (`client.create_collection`): registers an empty collection with
the given vector size and distance metric. -/
def client_create_collection (st : QStore) (name : String) (dim : Nat)
    (dist : QDistance) : QStore :=
  st ++ [(name, ⟨dim, dist, []⟩)]

/-- Modelled from the spec: the server-side upsert of the vector store
(`client.upsert`): fails on an unknown collection or on an embedding whose
length differs from the collection's configured vector dimension; otherwise
replaces any point with the same id and appends the new point. -/
def client_upsert (st : QStore) (name : String) (pt : QPoint) :
    Except String QStore :=
  match lookupCol st name with
  | none => Except.error ("collection not found: " ++ name)
  | some col =>
    if pt.vector.length ≠ col.dim then Except.error "vector dimension mismatch"
    else
      Except.ok (storeUpdate name
        { col with points := (col.points.filter fun q => q.id ≠ pt.id) ++ [pt] } st)

/-- The `distance_map.get(distance, models.Distance.COSINE)` of
`create_collections`. -/
def distance_map (distance : String) : QDistance :=
  if distance = "cosine" then QDistance.cosine
  else if distance = "euclid" then QDistance.euclid
  else if distance = "dot" then QDistance.dot
  else if distance = "manhattan" then QDistance.manhattan
  else QDistance.cosine

/-- The per-metric body of `create_collections`: skip existing collections,
create missing ones with vector size 512 and the mapped distance. -/
def create_step (s : QStore) (distance : String) : QStore :=
  let collection_name := Config.get_qdrant_collection_name distance
  if collection_exists s collection_name then s
  else client_create_collection s collection_name 512 (distance_map distance)

/-- `QdrantManager.create_collections`: one collection per configured distance
metric, each created with vector size 512; existing collections are skipped;
a set `collections_created` flag short-circuits.  Returns the new store, the
new flag, and the `(success, message)` pair. -/
def create_collections (collections_created : Bool) (st : QStore) :
    (QStore × Bool) × Bool × Option String :=
  if collections_created then ((st, true), true, some "Collections already created")
  else
    ((Config.get_distance_metrics.foldl create_step st, true), true,
      some "Collections created successfully")

/-- The per-metric upsert loop of `QdrantManager.upsert_image`; a raised
client error stops the loop (earlier upserts persist). -/
def upsert_loop (pt : QPoint) : List String → QStore → QStore × Option String
  | [], st => (st, none)
  | distance :: rest, st =>
    match client_upsert st (Config.get_qdrant_collection_name distance) pt with
    | Except.error e => (st, some e)
    | Except.ok st' => upsert_loop pt rest st'

/-- `QdrantManager.upsert_image`: one `point_id` (`uuid4`, an input here) and
one payload, written into every configured distance-metric collection. -/
def upsert_image (st : QStore) (point_id : String) (image_data : ImageRecord)
    (file_path_exists : Bool) (processed_at : String) (embedding : List ℚ) :
    QStore × Bool × Option String :=
  let payload := create_payload image_data file_path_exists processed_at
  match upsert_loop ⟨point_id, embedding, payload⟩ Config.get_distance_metrics st with
  | (st', none) => (st', true, none)
  | (st', some e) => (st', false, some ("Failed to upsert image: " ++ e))

theorem lookupCol_cons (k : String) (c : QCollection) (tl : QStore) (n : String) :
    lookupCol ((k, c) :: tl) n = if k = n then some c else lookupCol tl n := by
  unfold lookupCol
  rw [List.find?_cons]
  by_cases h : k = n
  · simp [h]
  · have hb : (k == n) = false := beq_eq_false_iff_ne.mpr h
    simp [hb, h]

theorem lookupCol_storeUpdate (name : String) (nc : QCollection) (st : QStore)
    (n : String) :
    lookupCol (storeUpdate name nc st) n =
      if n = name then (lookupCol st n).map fun _ => nc else lookupCol st n := by
  induction st with
  | nil =>
    unfold storeUpdate
    by_cases h : n = name <;> simp [h, lookupCol]
  | cons hd tl ih =>
    obtain ⟨k, c⟩ := hd
    unfold storeUpdate
    by_cases hk : k = name
    · subst hk
      rw [if_pos rfl, lookupCol_cons, lookupCol_cons]
      by_cases hn : k = n
      · subst hn
        simp [ih]
      · simp [hn, ih]
    · rw [if_neg hk, lookupCol_cons, lookupCol_cons]
      by_cases hn : k = n
      · subst hn
        simp [hk]
      · simp [hn, ih]

theorem client_upsert_ok {st : QStore} {name : String} {pt : QPoint}
    {col : QCollection} (hcol : lookupCol st name = some col)
    (hdim : pt.vector.length = col.dim) :
    client_upsert st name pt =
      Except.ok (storeUpdate name
        { col with points := (col.points.filter fun q => q.id ≠ pt.id) ++ [pt] } st) := by
  unfold client_upsert
  rw [hcol]
  simp [hdim]

theorem upsert_loop_spec (pt : QPoint) :
    ∀ (ms : List String) (st : QStore),
      (∀ m ∈ ms, ∃ col,
          lookupCol st (Config.get_qdrant_collection_name m) = some col ∧
          col.dim = pt.vector.length) →
      ∃ st', upsert_loop pt ms st = (st', none) ∧
        (∀ n, (lookupCol st' n).map QCollection.dim =
          (lookupCol st n).map QCollection.dim) ∧
        (∀ m ∈ ms, ∃ col,
          lookupCol st' (Config.get_qdrant_collection_name m) = some col ∧
          pt ∈ col.points) ∧
        (∀ n col col', lookupCol st n = some col → lookupCol st' n = some col' →
          pt ∈ col.points → pt ∈ col'.points) := by
  intro ms
  induction ms with
  | nil =>
    intro st _
    refine ⟨st, rfl, fun _ => rfl, by simp, ?_⟩
    intro n col col' h1 h2 hmem
    rw [h1] at h2
    obtain rfl := Option.some.inj h2
    exact hmem
  | cons m rest ih =>
    intro st hyp
    obtain ⟨col, hcol, hdim⟩ := hyp m (List.mem_cons_self m rest)
    have hup := client_upsert_ok hcol hdim.symm
    set name := Config.get_qdrant_collection_name m with hname
    set newCol : QCollection :=
      { col with points := (col.points.filter fun q => q.id ≠ pt.id) ++ [pt] }
      with hnewCol
    set st1 := storeUpdate name newCol st with hst1
    have hlook1 : ∀ n, lookupCol st1 n =
        if n = name then (lookupCol st n).map (fun _ => newCol)
        else lookupCol st n := fun n => lookupCol_storeUpdate name newCol st n
    have hlook1name : lookupCol st1 name = some newCol := by
      rw [hlook1 name, if_pos rfl, hcol]
      rfl
    have hdims1 : ∀ n, (lookupCol st1 n).map QCollection.dim =
        (lookupCol st n).map QCollection.dim := by
      intro n
      rw [hlook1 n]
      by_cases h : n = name
      · subst h
        rw [hcol, if_pos rfl]
        rfl
      · rw [if_neg h]
    have hyp1 : ∀ m' ∈ rest, ∃ c,
        lookupCol st1 (Config.get_qdrant_collection_name m') = some c ∧
        c.dim = pt.vector.length := by
      intro m' hm'
      obtain ⟨c0, hc0, hd0⟩ := hyp m' (List.mem_cons_of_mem _ hm')
      have hd := hdims1 (Config.get_qdrant_collection_name m')
      rw [hc0] at hd
      cases hL : lookupCol st1 (Config.get_qdrant_collection_name m') with
      | none =>
        rw [hL] at hd
        simp at hd
      | some c1 =>
        rw [hL] at hd
        simp only [Option.map_some'] at hd
        exact ⟨c1, rfl, by rw [Option.some.inj hd]; exact hd0⟩
    obtain ⟨st', hloop, hdims2, hmem2, hpres2⟩ := ih st1 hyp1
    refine ⟨st', ?_, ?_, ?_, ?_⟩
    · show upsert_loop pt (m :: rest) st = (st', none)
      unfold upsert_loop
      rw [← hname, hup]
      exact hloop
    · intro n
      rw [hdims2 n, hdims1 n]
    · intro m' hm'
      rcases List.mem_cons.mp hm' with rfl | hm'
      · have hd := hdims2 name
        rw [hlook1name] at hd
        cases hL : lookupCol st' name with
        | none =>
          rw [hL] at hd
          simp at hd
        | some cf =>
          refine ⟨cf, rfl, ?_⟩
          refine hpres2 name newCol cf hlook1name hL ?_
          rw [hnewCol]
          simp
      · exact hmem2 m' hm'
    · intro n c c' h1 h2 hm
      by_cases hn : n = name
      · subst hn
        rw [hcol] at h1
        obtain rfl := Option.some.inj h1
        refine hpres2 name newCol c' hlook1name h2 ?_
        rw [hnewCol]
        simp
      · have hmid : lookupCol st1 n = some c := by
          rw [hlook1 n, if_neg hn, h1]
        exact hpres2 n c c' hmid h2 hm

theorem lookupCol_append_single (st : QStore) (k : String) (c : QCollection)
    (n : String) :
    lookupCol (st ++ [(k, c)]) n =
      match lookupCol st n with
      | some c' => some c'
      | none => if k = n then some c else none := by
  induction st with
  | nil =>
    rw [List.nil_append, lookupCol_cons]
    rfl
  | cons hd tl ih =>
    obtain ⟨k0, c0⟩ := hd
    rw [List.cons_append, lookupCol_cons, lookupCol_cons]
    by_cases h : k0 = n
    · simp [h]
    · simp only [h, if_false, ite_false]
      exact ih

theorem create_foldl_lookup :
    ∀ (ms : List String) (st : QStore) (n : String),
      lookupCol (ms.foldl create_step st) n =
        match lookupCol st n with
        | some c => some c
        | none =>
          match ms.find? (fun m => Config.get_qdrant_collection_name m == n) with
          | some m => some ⟨512, distance_map m, []⟩
          | none => none := by
  intro ms
  induction ms with
  | nil =>
    intro st n
    rw [List.foldl_nil]
    cases lookupCol st n <;> rfl
  | cons m rest ih =>
    intro st n
    rw [List.foldl_cons]
    by_cases hex : collection_exists st (Config.get_qdrant_collection_name m) = true
    · have hstep : create_step st m = st := by
        unfold create_step
        rw [if_pos hex]
      rw [hstep, ih st n]
      cases hL : lookupCol st n with
      | some c => rfl
      | none =>
        rw [List.find?_cons]
        have hne : (Config.get_qdrant_collection_name m == n) = false := by
          rw [beq_eq_false_iff_ne]
          intro heq
          rw [collection_exists, heq, hL] at hex
          exact absurd hex (by simp)
        rw [hne]
    · have hstep : create_step st m =
          st ++ [(Config.get_qdrant_collection_name m,
            ⟨512, distance_map m, []⟩)] := by
        unfold create_step client_create_collection
        rw [if_neg hex]
      rw [hstep, ih _ n, lookupCol_append_single]
      cases hL : lookupCol st n with
      | some c => rfl
      | none =>
        rw [List.find?_cons]
        by_cases heq : Config.get_qdrant_collection_name m = n
        · have hb : (Config.get_qdrant_collection_name m == n) = true := by
            rw [beq_iff_eq]
            exact heq
          rw [hb, if_pos heq]
        · have hb : (Config.get_qdrant_collection_name m == n) = false := by
            rw [beq_eq_false_iff_ne]
            exact heq
          rw [hb, if_neg heq]

/-- C8: For every successful upsert, the identical point — same point id, same
vector, same payload — is written into every configured distance-metric
collection (one collection per each of cosine, euclid, dot and manhattan,
named by appending the lower-cased metric to the base collection name), and
every collection `create_collections` creates is created with the same fixed
vector dimensionality 512 (and the mapped distance metric). -/
theorem claim_C8_upsert_all_collections :
    (∀ (st : QStore) (point_id : String) (data : ImageRecord)
        (fexists : Bool) (ts : String) (embedding : List ℚ),
      (∀ m ∈ Config.get_distance_metrics, ∃ col,
          lookupCol st (Config.get_qdrant_collection_name m) = some col ∧
          col.dim = embedding.length) →
      ∃ st', upsert_image st point_id data fexists ts embedding = (st', true, none) ∧
        ∀ m ∈ Config.get_distance_metrics, ∃ col,
          lookupCol st' (Config.get_qdrant_collection_name m) = some col ∧
          (⟨point_id, embedding, create_payload data fexists ts⟩ : QPoint) ∈
            col.points) ∧
      (∀ st : QStore,
        (∀ m ∈ Config.get_distance_metrics,
          collection_exists st (Config.get_qdrant_collection_name m) = false) →
        ∀ m ∈ Config.get_distance_metrics, ∃ col,
          lookupCol ((create_collections false st).1.1)
              (Config.get_qdrant_collection_name m) = some col ∧
          col.dim = 512 ∧ col.distance = distance_map m) := by
  constructor
  · intro st point_id data fexists ts embedding hyp
    obtain ⟨st', hloop, _, hmem, _⟩ :=
      upsert_loop_spec ⟨point_id, embedding, create_payload data fexists ts⟩
        Config.get_distance_metrics st hyp
    refine ⟨st', ?_, hmem⟩
    show (match upsert_loop
        (⟨point_id, embedding, create_payload data fexists ts⟩ : QPoint)
        Config.get_distance_metrics st with
      | (st', none) => (st', true, none)
      | (st', some e) => (st', false, some ("Failed to upsert image: " ++ e))) =
      (st', true, none)
    rw [hloop]
  · intro st hyp m hm
    have hnone : lookupCol st (Config.get_qdrant_collection_name m) = none := by
      have := hyp m hm
      rw [collection_exists] at this
      exact Option.not_isSome_iff_eq_none.mp (by rw [this]; exact Bool.false_ne_true)
    show ∃ col,
        lookupCol (Config.get_distance_metrics.foldl create_step st)
          (Config.get_qdrant_collection_name m) = some col ∧
        col.dim = 512 ∧ col.distance = distance_map m
    rw [create_foldl_lookup, hnone]
    simp only [Config.get_distance_metrics, List.mem_cons,
      List.mem_singleton] at hm
    rcases hm with rfl | rfl | rfl | (rfl | h)
    · exact ⟨⟨512, distance_map "cosine", []⟩, by decide, rfl, rfl⟩
    · exact ⟨⟨512, distance_map "euclid", []⟩, by decide, rfl, rfl⟩
    · exact ⟨⟨512, distance_map "dot", []⟩, by decide, rfl, rfl⟩
    · exact ⟨⟨512, distance_map "manhattan", []⟩, by decide, rfl, rfl⟩
    · simp at h

/-- A sample assembled record, used by concrete store instantiations. -/
def sampleRecord : ImageRecord :=
  { image_id := "id-1", file_path := "/img/a.jpg", file_name := "a.jpg",
    file_size := 5, width := 10, height := 20, format := "JPEG",
    processing_timestamp := "2024-01-01T00:00:00",
    gps_coordinates := none, location_name := none,
    ai_tags := ["gipfel", "schnee"], ai_description := "Ein Bild",
    model_used := "mistral", embedding := [1, 0], embedding_dim := 2 }

/-- A store holding the four metric collections, all of dimension 2, empty. -/
def c8Store : QStore :=
  [("image_db_cosine", ⟨2, QDistance.cosine, []⟩),
    ("image_db_euclid", ⟨2, QDistance.euclid, []⟩),
    ("image_db_dot", ⟨2, QDistance.dot, []⟩),
    ("image_db_manhattan", ⟨2, QDistance.manhattan, []⟩)]

theorem claim_C8_upsert_all_collections_witness :
    (∃ st', upsert_image c8Store "pid-1" sampleRecord true "2024-01-02" [1, 0] =
        (st', true, none) ∧
      ∀ m ∈ Config.get_distance_metrics, ∃ col,
        lookupCol st' (Config.get_qdrant_collection_name m) = some col ∧
        (⟨"pid-1", [1, 0], create_payload sampleRecord true "2024-01-02"⟩ : QPoint) ∈
          col.points) ∧
      ∀ m ∈ Config.get_distance_metrics, ∃ col,
        lookupCol ((create_collections false ([] : QStore)).1.1)
            (Config.get_qdrant_collection_name m) = some col ∧
        col.dim = 512 ∧ col.distance = distance_map m := by
  constructor
  · refine claim_C8_upsert_all_collections.1 c8Store "pid-1" sampleRecord true
      "2024-01-02" [1, 0] ?_
    intro m hm
    simp only [Config.get_distance_metrics, List.mem_cons, List.mem_singleton] at hm
    rcases hm with rfl | rfl | rfl | (rfl | h)
    · exact ⟨⟨2, QDistance.cosine, []⟩, by decide, rfl⟩
    · exact ⟨⟨2, QDistance.euclid, []⟩, by decide, rfl⟩
    · exact ⟨⟨2, QDistance.dot, []⟩, by decide, rfl⟩
    · exact ⟨⟨2, QDistance.manhattan, []⟩, by decide, rfl⟩
    · simp at h
  · exact claim_C8_upsert_all_collections.2 [] (by decide)

/-! ## Nearest-neighbor query model and the round-trip claim (C9)

The query itself runs inside the Qdrant server; it is modelled from the spec
as exact scoring of every stored point against the query vector, ranked by
descending score and truncated to `limit`.  Scores: cosine similarity (over
`ℝ`, with the stored `ℚ` vectors cast) for the cosine collection, the raw dot
product for the dot-product collection. -/

/-- Dot product of two rational vectors (`zip`-truncating like the server's
fixed-dimension vectors never need). -/
def dotQ (v w : List ℚ) : ℚ := (List.zipWith (fun a b => a * b) v w).sum

/-- Cosine similarity over the reals. -/
noncomputable def cosineSimilarity (v w : List ℚ) : ℝ :=
  ((dotQ v w : ℚ) : ℝ) /
    (Real.sqrt ((dotQ v v : ℚ) : ℝ) * Real.sqrt ((dotQ w w : ℚ) : ℝ))

/-- The dot-product score of the dot-metric collection. -/
def dotScore (v w : List ℚ) : ℚ := dotQ v w

/-- Insertion into a ranked list (first position where `ge` holds). -/
def insertRanked {α : Type _} (ge : α → α → Bool) (a : α) : List α → List α
  | [] => [a]
  | b :: t => if ge a b then a :: b :: t else b :: insertRanked ge a t

/-- Ranking by repeated insertion (descending under `ge`). -/
def sortRanked {α : Type _} (ge : α → α → Bool) (l : List α) : List α :=
  l.foldr (insertRanked ge) []

theorem mem_insertRanked {α : Type _} (ge : α → α → Bool) (a x : α) :
    ∀ l : List α, x ∈ insertRanked ge a l ↔ x = a ∨ x ∈ l := by
  intro l
  induction l with
  | nil => simp [insertRanked]
  | cons b t ih =>
    unfold insertRanked
    by_cases h : ge a b = true
    · simp [h]
    · rw [if_neg h]
      simp only [List.mem_cons, ih]
      tauto

theorem length_insertRanked {α : Type _} (ge : α → α → Bool) (a : α) :
    ∀ l : List α, (insertRanked ge a l).length = l.length + 1 := by
  intro l
  induction l with
  | nil => rfl
  | cons b t ih =>
    unfold insertRanked
    by_cases h : ge a b = true
    · simp [h]
    · rw [if_neg h]
      simp [ih]

theorem mem_sortRanked {α : Type _} (ge : α → α → Bool) (x : α) (l : List α) :
    x ∈ sortRanked ge l ↔ x ∈ l := by
  induction l with
  | nil => simp [sortRanked]
  | cons b t ih =>
    unfold sortRanked at ih ⊢
    rw [List.foldr_cons, mem_insertRanked, ih]
    simp

theorem length_sortRanked {α : Type _} (ge : α → α → Bool) (l : List α) :
    (sortRanked ge l).length = l.length := by
  induction l with
  | nil => rfl
  | cons b t ih =>
    unfold sortRanked at ih ⊢
    rw [List.foldr_cons, length_insertRanked, ih, List.length_cons]

/-- Modelled from the spec: the vector store's exact nearest-neighbor query of
the cosine collection (`search_similar_images` with the default metric):
every stored point scored by cosine similarity against the query, ranked by
descending score, truncated to `limit`. -/
noncomputable def query_points_cosine (st : QStore) (query : List ℚ)
    (limit : Nat) : List (QPoint × ℝ) :=
  match lookupCol st (Config.get_qdrant_collection_name "cosine") with
  | none => []
  | some col =>
    (sortRanked (fun a b => decide (b.2 ≤ a.2))
      (col.points.map fun p => (p, cosineSimilarity query p.vector))).take limit

/-- Modelled from the spec: the same query against the dot-product collection,
scored by the raw dot product. -/
def query_points_dot (st : QStore) (query : List ℚ) (limit : Nat) :
    List (QPoint × ℚ) :=
  match lookupCol st (Config.get_qdrant_collection_name "dot") with
  | none => []
  | some col =>
    (sortRanked (fun a b => decide (b.2 ≤ a.2))
      (col.points.map fun p => (p, dotScore query p.vector))).take limit

theorem dotQ_self_nonneg (v : List ℚ) : 0 ≤ dotQ v v := by
  induction v with
  | nil => simp [dotQ]
  | cons a t ih =>
    unfold dotQ at ih ⊢
    rw [List.zipWith_cons_cons, List.sum_cons]
    nlinarith [sq_nonneg a]

theorem dotQ_self_pos {v : List ℚ} (h : ∃ x ∈ v, x ≠ 0) : 0 < dotQ v v := by
  induction v with
  | nil => simp at h
  | cons a t ih =>
    unfold dotQ at ih ⊢
    rw [List.zipWith_cons_cons, List.sum_cons]
    obtain ⟨x, hx, hx0⟩ := h
    rcases List.mem_cons.mp hx with rfl | hx
    · have h1 : 0 < x * x := mul_self_pos.mpr hx0
      have h2 := dotQ_self_nonneg t
      unfold dotQ at h2
      linarith
    · have h1 := ih ⟨x, hx, hx0⟩
      nlinarith [sq_nonneg a]

theorem dotQ_cross (x y : ℚ) :
    ∀ (xs ys : List ℚ),
      2 * x * y * dotQ xs ys ≤ x ^ 2 * dotQ ys ys + y ^ 2 * dotQ xs xs := by
  intro xs
  induction xs with
  | nil =>
    intro ys
    have h1 := dotQ_self_nonneg ys
    unfold dotQ at h1 ⊢
    simp only [List.zipWith_nil_left, List.sum_nil]
    nlinarith [sq_nonneg x]
  | cons a as ih =>
    intro ys
    cases ys with
    | nil =>
      have h1 := dotQ_self_nonneg (a :: as)
      unfold dotQ at h1 ⊢
      simp only [List.zipWith_nil_right, List.sum_nil]
      nlinarith [sq_nonneg y]
    | cons b bs =>
      have hih := ih bs
      unfold dotQ at hih ⊢
      rw [List.zipWith_cons_cons, List.sum_cons, List.zipWith_cons_cons,
        List.sum_cons, List.zipWith_cons_cons, List.sum_cons]
      nlinarith [sq_nonneg (x * b - y * a)]

theorem dotQ_sq_le (v : List ℚ) :
    ∀ w : List ℚ, dotQ v w ^ 2 ≤ dotQ v v * dotQ w w := by
  induction v with
  | nil =>
    intro w
    have := dotQ_self_nonneg w
    simp [dotQ]
  | cons a as ih =>
    intro w
    cases w with
    | nil =>
      have := dotQ_self_nonneg (a :: as)
      simp [dotQ]
    | cons b bs =>
      have hih := ih bs
      have hcross := dotQ_cross a b as bs
      unfold dotQ at hih hcross ⊢
      rw [List.zipWith_cons_cons, List.sum_cons, List.zipWith_cons_cons,
        List.sum_cons, List.zipWith_cons_cons, List.sum_cons]
      nlinarith

theorem cosineSimilarity_self {v : List ℚ} (h : 0 < dotQ v v) :
    cosineSimilarity v v = 1 := by
  unfold cosineSimilarity
  have hd : (0 : ℝ) < ((dotQ v v : ℚ) : ℝ) := by exact_mod_cast h
  rw [Real.mul_self_sqrt hd.le]
  exact div_self hd.ne'

theorem cosineSimilarity_le_one (v w : List ℚ) : cosineSimilarity v w ≤ 1 := by
  unfold cosineSimilarity
  set a : ℝ := ((dotQ v v : ℚ) : ℝ) with ha
  set b : ℝ := ((dotQ w w : ℚ) : ℝ) with hb
  set c : ℝ := ((dotQ v w : ℚ) : ℝ) with hc
  have han : 0 ≤ a := by
    rw [ha]
    exact_mod_cast dotQ_self_nonneg v
  have hbn : 0 ≤ b := by
    rw [hb]
    exact_mod_cast dotQ_self_nonneg w
  have hcs : c ^ 2 ≤ a * b := by
    rw [ha, hb, hc]
    exact_mod_cast dotQ_sq_le v w
  have hden : 0 ≤ Real.sqrt a * Real.sqrt b :=
    mul_nonneg (Real.sqrt_nonneg a) (Real.sqrt_nonneg b)
  rcases eq_or_lt_of_le hden with hz | hpos
  · rw [← hz, div_zero]
    exact zero_le_one
  · rw [div_le_one hpos]
    calc c ≤ |c| := le_abs_self c
    _ = Real.sqrt (c ^ 2) := (Real.sqrt_sq_eq_abs c).symm
    _ ≤ Real.sqrt (a * b) := Real.sqrt_le_sqrt hcs
    _ = Real.sqrt a * Real.sqrt b := Real.sqrt_mul han b

theorem filter_ne_length_lt {pt : QPoint} {l : List QPoint} (h : pt ∈ l) :
    (l.filter fun q => q.id ≠ pt.id).length < l.length := by
  rw [List.length_filter_lt_length_iff_exists]
  exact ⟨pt, h, by simp⟩

theorem client_upsert_missing {st : QStore} {name : String} {pt : QPoint}
    (h : lookupCol st name = none) :
    client_upsert st name pt = Except.error ("collection not found: " ++ name) := by
  unfold client_upsert
  rw [h]

theorem client_upsert_mismatch {st : QStore} {name : String} {pt : QPoint}
    {col : QCollection} (h : lookupCol st name = some col)
    (hdim : pt.vector.length ≠ col.dim) :
    client_upsert st name pt = Except.error "vector dimension mismatch" := by
  unfold client_upsert
  rw [h]
  simp [hdim]

theorem upsert_loop_length (pt : QPoint) :
    ∀ (ms : List String) (st st' : QStore),
      upsert_loop pt ms st = (st', none) →
      ∀ (n : String) (col col' : QCollection),
        lookupCol st n = some col → lookupCol st' n = some col' →
        col'.points.length ≤ col.points.length + 1 ∧
          (pt ∈ col.points → col'.points.length ≤ col.points.length) := by
  intro ms
  induction ms with
  | nil =>
    intro st st' hrun n col col' h1 h2
    have hst : st = st' := congrArg Prod.fst hrun
    subst hst
    rw [h1] at h2
    obtain rfl := Option.some.inj h2
    exact ⟨Nat.le_succ _, fun _ => Nat.le_refl _⟩
  | cons m rest ih =>
    intro st st' hrun n col col' h1 h2
    unfold upsert_loop at hrun
    cases hcu : client_upsert st (Config.get_qdrant_collection_name m) pt with
    | error e =>
      rw [hcu] at hrun
      exact absurd (congrArg Prod.snd hrun) (by simp)
    | ok st1 =>
      rw [hcu] at hrun
      cases hL : lookupCol st (Config.get_qdrant_collection_name m) with
      | none =>
        rw [client_upsert_missing hL] at hcu
        exact absurd hcu (by simp)
      | some colm =>
        by_cases hdim : pt.vector.length = colm.dim
        · have hval := client_upsert_ok hL hdim
          rw [hval] at hcu
          obtain rfl := Except.ok.inj hcu
          set newCol : QCollection :=
            { colm with points := (colm.points.filter fun q => q.id ≠ pt.id) ++ [pt] }
            with hnew
          by_cases hn : n = Config.get_qdrant_collection_name m
          · subst hn
            rw [hL] at h1
            obtain rfl := Option.some.inj h1
            have hmid : lookupCol
                (storeUpdate (Config.get_qdrant_collection_name m) newCol st)
                (Config.get_qdrant_collection_name m) = some newCol := by
              rw [lookupCol_storeUpdate, if_pos rfl, hL]
              rfl
            have hb := ih _ st' hrun (Config.get_qdrant_collection_name m)
              newCol col' hmid h2
            have hfl : (colm.points.filter fun q => q.id ≠ pt.id).length ≤
                colm.points.length := List.length_filter_le _ _
            have hlen1 : newCol.points.length =
                (colm.points.filter fun q => q.id ≠ pt.id).length + 1 := by
              rw [hnew]
              simp
            have hptm : pt ∈ newCol.points := by
              rw [hnew]
              simp
            constructor
            · have := hb.2 hptm
              omega
            · intro hmem
              have hlt := filter_ne_length_lt hmem
              have := hb.2 hptm
              omega
          · have hmid : lookupCol (storeUpdate (Config.get_qdrant_collection_name m)
                newCol st) n = some col := by
              rw [lookupCol_storeUpdate, if_neg hn, h1]
            exact ih _ st' hrun n col col' hmid h2
        · rw [client_upsert_mismatch hL hdim] at hcu
          exact absurd hcu (by simp)

/-- C9 (amended): For every ImageRecord upserted with a non-zero embedding
into a store holding the configured collections, a nearest-neighbor query of
the cosine collection — the metric the search router actually uses — with
that same embedding and a sufficient limit returns the record with cosine
similarity exactly 1, the maximum possible cosine score (every returned score
is ≤ 1).  For the dot-product collection the analogous statement fails: see
the counterexample. -/
theorem claim_C9_cosine_roundtrip (st : QStore) (point_id : String)
    (data : ImageRecord) (fexists : Bool) (ts : String) (v : List ℚ)
    (limit : Nat)
    (hyp : ∀ m ∈ Config.get_distance_metrics, ∃ col,
        lookupCol st (Config.get_qdrant_collection_name m) = some col ∧
        col.dim = v.length)
    (hv : ∃ x ∈ v, x ≠ 0)
    (hlimit : ∀ col,
        lookupCol st (Config.get_qdrant_collection_name "cosine") = some col →
        col.points.length + 1 ≤ limit) :
    ∃ st',
      upsert_image st point_id data fexists ts v = (st', true, none) ∧
      ((⟨point_id, v, create_payload data fexists ts⟩ : QPoint), (1 : ℝ)) ∈
        query_points_cosine st' v limit ∧
      cosineSimilarity v v = 1 ∧
      ∀ r ∈ query_points_cosine st' v limit, r.2 ≤ 1 := by
  have hpos : 0 < dotQ v v := dotQ_self_pos hv
  have hone : cosineSimilarity v v = 1 := cosineSimilarity_self hpos
  obtain ⟨st', hloop, hdims, hmem, hpres⟩ :=
    upsert_loop_spec ⟨point_id, v, create_payload data fexists ts⟩
      Config.get_distance_metrics st hyp
  obtain ⟨colF, hColF, hptF⟩ := hmem "cosine" (by decide)
  obtain ⟨col0, hcol0, hdim0⟩ := hyp "cosine" (by decide)
  have hlen := (upsert_loop_length ⟨point_id, v, create_payload data fexists ts⟩
    Config.get_distance_metrics st st' hloop
    (Config.get_qdrant_collection_name "cosine") col0 colF hcol0 hColF).1
  have hlim := hlimit col0 hcol0
  have hlenle : colF.points.length ≤ limit := by omega
  refine ⟨st', ?_, ?_, hone, ?_⟩
  · show (match upsert_loop
        (⟨point_id, v, create_payload data fexists ts⟩ : QPoint)
        Config.get_distance_metrics st with
      | (st', none) => (st', true, none)
      | (st', some e) => (st', false, some ("Failed to upsert image: " ++ e))) =
      (st', true, none)
    rw [hloop]
  · unfold query_points_cosine
    rw [hColF]
    show ((⟨point_id, v, create_payload data fexists ts⟩ : QPoint), (1 : ℝ)) ∈
      (sortRanked (fun a b => decide (b.2 ≤ a.2))
        (colF.points.map fun p => (p, cosineSimilarity v p.vector))).take limit
    rw [List.take_of_length_le
      (by rw [length_sortRanked, List.length_map]; exact hlenle)]
    rw [mem_sortRanked, List.mem_map]
    refine ⟨⟨point_id, v, create_payload data fexists ts⟩, hptF, ?_⟩
    rw [hone]
  · intro r hr
    unfold query_points_cosine at hr
    rw [hColF] at hr
    replace hr : r ∈ sortRanked (fun a b => decide (b.2 ≤ a.2))
        (colF.points.map fun p => (p, cosineSimilarity v p.vector)) :=
      List.take_subset _ _ hr
    rw [mem_sortRanked, List.mem_map] at hr
    obtain ⟨p, _, rfl⟩ := hr
    exact cosineSimilarity_le_one v p.vector

theorem claim_C9_cosine_roundtrip_witness :
    ∃ st',
      upsert_image c8Store "pid-9" sampleRecord true "2024-01-03" [1, 0] =
        (st', true, none) ∧
      ((⟨"pid-9", [1, 0], create_payload sampleRecord true "2024-01-03"⟩ : QPoint),
        (1 : ℝ)) ∈ query_points_cosine st' [1, 0] 1 ∧
      cosineSimilarity [1, 0] [1, 0] = 1 ∧
      ∀ r ∈ query_points_cosine st' [1, 0] 1, r.2 ≤ 1 := by
  refine claim_C9_cosine_roundtrip c8Store "pid-9" sampleRecord true "2024-01-03"
    [1, 0] 1 ?_ ?_ ?_
  · intro m hm
    simp only [Config.get_distance_metrics, List.mem_cons, List.mem_singleton] at hm
    rcases hm with rfl | rfl | rfl | (rfl | h)
    · exact ⟨⟨2, QDistance.cosine, []⟩, by decide, rfl⟩
    · exact ⟨⟨2, QDistance.euclid, []⟩, by decide, rfl⟩
    · exact ⟨⟨2, QDistance.dot, []⟩, by decide, rfl⟩
    · exact ⟨⟨2, QDistance.manhattan, []⟩, by decide, rfl⟩
    · simp at h
  · exact ⟨1, by decide, by decide⟩
  · intro col h
    have h0 : lookupCol c8Store (Config.get_qdrant_collection_name "cosine") =
        some ⟨2, QDistance.cosine, []⟩ := by decide
    rw [h0] at h
    obtain rfl := Option.some.inj h
    decide

/-- The point upserted in the dot-metric counterexample. -/
def c9Pt : QPoint := ⟨"v", [1, 0], create_payload sampleRecord true "2024-01-01"⟩

/-- A pre-existing point of the dot collection with a larger norm in the same
direction as the query. -/
def c9WPt : QPoint := ⟨"w", [2, 0], create_payload sampleRecord true "2023-12-31"⟩

/-- Store where the dot collection already holds `c9WPt`. -/
def c9DotStore : QStore :=
  [("image_db_cosine", ⟨2, QDistance.cosine, []⟩),
    ("image_db_euclid", ⟨2, QDistance.euclid, []⟩),
    ("image_db_dot", ⟨2, QDistance.dot, [c9WPt]⟩),
    ("image_db_manhattan", ⟨2, QDistance.manhattan, []⟩)]

/-- The same store after upserting `c9Pt` into every collection. -/
def c9After : QStore :=
  [("image_db_cosine", ⟨2, QDistance.cosine, [c9Pt]⟩),
    ("image_db_euclid", ⟨2, QDistance.euclid, [c9Pt]⟩),
    ("image_db_dot", ⟨2, QDistance.dot, [c9WPt, c9Pt]⟩),
    ("image_db_manhattan", ⟨2, QDistance.manhattan, [c9Pt]⟩)]

/-- C9 (counterexample): in the dot-product collection, the freshly upserted
record `v = [1, 0]` is returned by the nearest-neighbor query of its own
embedding with score 1, but the pre-existing record `w = [2, 0]` scores 2 on
the same query — the record's similarity score is NOT at the maximum for the
collection's configured metric, so the claim fails as stated for the
dot-product metric. -/
theorem claim_C9_counterexample :
    upsert_image c9DotStore "v" sampleRecord true "2024-01-01" [1, 0] =
        (c9After, true, none) ∧
      ((query_points_dot c9After [1, 0] 10).map fun r => (r.1.id, r.2)) =
        [("w", 2), ("v", 1)] ∧
      ∃ rv ∈ query_points_dot c9After [1, 0] 10, rv.1.id = "v" ∧
        ∃ rw ∈ query_points_dot c9After [1, 0] 10, rv.2 < rw.2 := by
  have hmap : ([c9WPt, c9Pt].map fun p => (p, dotScore [1, 0] p.vector)) =
      [(c9WPt, 2), (c9Pt, 1)] := by
    simp only [c9WPt, c9Pt, dotScore, dotQ, List.map_cons, List.map_nil,
      List.zipWith_cons_cons, List.zipWith_nil_right, List.sum_cons,
      List.sum_nil, Prod.mk.injEq]
    norm_num
  have hq : query_points_dot c9After [1, 0] 10 = [(c9WPt, 2), (c9Pt, 1)] := by
    unfold query_points_dot
    have hlook : lookupCol c9After (Config.get_qdrant_collection_name "dot") =
        some ⟨2, QDistance.dot, [c9WPt, c9Pt]⟩ := by decide
    rw [hlook]
    show (sortRanked (fun a b => decide (b.2 ≤ a.2))
        ([c9WPt, c9Pt].map fun p => (p, dotScore [1, 0] p.vector))).take 10 =
      [(c9WPt, 2), (c9Pt, 1)]
    rw [hmap]
    show (sortRanked (fun a b => decide (b.2 ≤ a.2))
      [(c9WPt, (2 : ℚ)), (c9Pt, 1)]).take 10 = [(c9WPt, 2), (c9Pt, 1)]
    unfold sortRanked
    rw [List.foldr_cons, List.foldr_cons, List.foldr_nil]
    show (insertRanked (fun a b => decide (b.2 ≤ a.2)) (c9WPt, (2 : ℚ))
      [(c9Pt, 1)]).take 10 = [(c9WPt, 2), (c9Pt, 1)]
    unfold insertRanked
    rw [if_pos (by norm_num)]
    rfl
  refine ⟨by decide, ?_, ?_⟩
  · rw [hq]
    decide
  · rw [hq]
    refine ⟨(c9Pt, 1), by simp, by decide, (c9WPt, 2), by simp, by norm_num⟩

end QdrantSpec
